import Mathlib

/-!
Verification of the dominion rules engine (crate `dom_core`).

The repository carries two generations of the state/mutation subsystem:

* `src/dom_core/src/lib.rs` — the compiled module: card catalog, `BoardState`
  with `RevealTopDeck` and a one-argument `DrawCard`, and the `Game` facade
  with `new_from_seed` / `new_first_game`.  Embedded below as `DomCore`.
* `src/dom_core/src/state.rs` — a newer standalone rewrite of the same
  subsystem: `BoardState` with a two-argument `DrawCard`, `DiscardHand`,
  `DiscardPlayed`, phases and counters.  Embedded below as `DomState`.

Shared leaves (cards, the card multiset, player ids, the PRNG model) live in
the `Dom` namespace.
-/

namespace Dom

/-- Enumeration of all different cards (`Card` in src/dom_core/src/card.rs),
in declaration order. -/
inductive Card where
  | Copper | Silver | Gold
  | Estate | Duchy | Province
  | Curse
  | Cellar | Market | Militia | Mine | Moat | Remodel | Smithy | Village
  | Woodcutter | Workshop
deriving DecidableEq, Repr

/-- The declaration order of `Card`, which is the iteration order of
`enum_map::EnumMap<Card, _>`. -/
def cardList : List Card :=
  [.Copper, .Silver, .Gold, .Estate, .Duchy, .Province, .Curse,
   .Cellar, .Market, .Militia, .Mine, .Moat, .Remodel, .Smithy, .Village,
   .Woodcutter, .Workshop]

/-- `Players` (src/dom_core/src/rules.rs). -/
inductive Players where
  | Two | Three | Four
deriving DecidableEq, Repr

/-- The `repr(u32)` value of a `Players` variant. -/
def Players.toNat : Players → Nat
  | .Two => 2
  | .Three => 3
  | .Four => 4

/-- `Card::player_victories` (card.rs). -/
def Card.player_victories (players : Players) : Nat :=
  if players = Players.Two then 8 else 12

/-- `Card::starting_count` (card.rs). -/
def Card.starting_count (c : Card) (players : Players) : Nat :=
  match c with
  | .Copper => 60
  | .Silver => 40
  | .Gold => 30
  | .Estate => players.toNat * 3 + Card.player_victories players
  | .Duchy | .Province => Card.player_victories players
  | .Curse => (players.toNat - 1) * 10
  | _ => 10

/-- `Player` (identical in lib.rs and state.rs). -/
inductive Player where
  | P0 | P1 | P2 | P3
deriving DecidableEq, Repr

/-- The `repr(u32)` value of a `Player` variant, used for `Vec` indexing. -/
def Player.toNat : Player → Nat
  | .P0 => 0
  | .P1 => 1
  | .P2 => 2
  | .P3 => 3

/-- `CardSet` (card.rs): an `EnumMap<Card, u32>`, i.e. a total map from card
identity to count. -/
def CardSet := Card → Nat

namespace CardSet

/-- `CardSet::empty`. -/
def empty : CardSet := fun _ => 0

/-- `CardSet::insert`: adds `count` copies. -/
def insert (s : CardSet) (card : Card) (count : Nat) : CardSet :=
  fun c => if c = card then s c + count else s c

/-- `CardSet::count`. -/
def count (s : CardSet) (card : Card) : Nat := s card

/-- `CardSet::take`: succeeds iff at least `count` copies are present.  The
Rust method mutates in place and returns `bool`; we return the new set on
success. -/
def take (s : CardSet) (card : Card) (count : Nat) : Option CardSet :=
  if s card < count then none
  else some (fun c => if c = card then s c - count else s c)

/-- `CardSet::contains`: non-zero count. -/
def contains (s : CardSet) (card : Card) : Bool := decide (0 < s card)

/-- The sequence yielded by `CardSetIterator` (card.rs): the `(card, count)`
pairs are collected in enum order and then popped from the back, so the cards
come out in reverse enum order, each replicated by its count.  `drain` yields
this same sequence and empties the set. -/
def toList (s : CardSet) : List Card :=
  (cardList.reverse.map (fun c => List.replicate (s c) c)).flatten

/-- `impl PartialEq for CardSet` (card.rs): compares the two iteration
sequences. -/
def beq (s t : CardSet) : Bool := s.toList == t.toList

end CardSet

/-- State of the external deterministic PRNG (`rand::prng::chacha::ChaChaRng`).
Modelled from the spec: the PRNG is an external dependency of this crate; the
spec requires only that it is deterministic, seeded once with a 32-byte seed,
and reproducible from its state, while its exact output stream is
implementation-defined.  We model its state as a bare `Nat`. -/
def RngState := Nat

/-- A bounded-draw step of the external PRNG: `gen r bound` models
`rng.gen_range(0, bound)` returning the drawn value together with the advanced
generator state.  All theorems about shuffling quantify over this function, so
nothing below depends on the particular output stream. -/
def GenFn := Nat → Nat → Nat × Nat

/-- A concrete instance of `GenFn`, used to evaluate the closed scenarios. -/
def genModel : GenFn := fun s n => (s % n, s + 1)

/-- `slice::swap` on a list: exchange positions `i` and `j` (identity when an
index is out of bounds, which the shuffle below never produces for an
in-contract generator). -/
def listSwap (l : List α) (i j : Nat) : List α :=
  match l[i]?, l[j]? with
  | some a, some b => (l.set i b).set j a
  | _, _ => l

/-- The loop body of `Rng::shuffle` from `rand 0.5` (Fisher-Yates): for
`i = len-1` down to `1`, `values.swap(i, gen_range(0, i+1))`.  The first
argument counts the remaining iterations; at fuel `k+1` the current index `i`
is `k+1` and the bound passed to the generator is `i + 1 = k + 2`. -/
def shuffleAux (gen : GenFn) : Nat → List α → Nat → List α × Nat
  | 0, l, r => (l, r)
  | k+1, l, r =>
    let p := gen r (k + 2)
    shuffleAux gen k (listSwap l (k+1) p.1) p.2

/-- `rng.shuffle(values)` from `rand 0.5`, returning the shuffled list and the
advanced generator state. -/
def listShuffle (gen : GenFn) (l : List α) (r : Nat) : List α × Nat :=
  shuffleAux gen (l.length - 1) l r

end Dom

namespace DomState

open Dom

/-- `PlayerPhase` (state.rs). -/
inductive PlayerPhase where
  | Action | Buy | NotTurn
deriving DecidableEq, Repr

/-- `Mutation` (state.rs).  The variants `RevealHandCards` and `PlayCard` of
the Rust enum are not embedded: `BoardState::mutate` dispatches them to
`unimplemented!()`, which aborts the process, so they are outside the
accept/reject contract that the embedded algebra models. -/
inductive Mutation where
  | SetPlayers (p : Players)
  | AddStack (card : Card) (count : Nat)
  | ChangeTurn (p : Player)
  | SetPhase (p : Player) (phase : PlayerPhase)
  | SetBuys (p : Player) (n : Nat)
  | SetActions (p : Player) (n : Nat)
  | SetGold (p : Player) (n : Nat)
  | DiscardHand (p : Player) (c : Card)
  | DiscardPlayed (p : Player)
  | DrawCard (p : Player) (c : Option Card)
  | GainCard (p : Player) (c : Card)
  | ShuffleDiscard (p : Player)

/-- `PlayerState` (state.rs).  The top of the `draw` pile is its last
element. -/
structure PlayerState where
  hand : List (Option Card)
  played : CardSet
  discard : CardSet
  draw : List (Option Card)
  actions : Nat
  buys : Nat
  phase : PlayerPhase
  gold : Nat

/-- `impl PartialEq for PlayerState` (state.rs): compares only `hand`,
`played`, `discard` and `draw`. -/
def PlayerState.beq (a b : PlayerState) : Bool :=
  a.hand == b.hand && a.played.beq b.played && a.discard.beq b.discard
    && a.draw == b.draw

/-- Element-wise comparison of the two player lists
(`players.iter().eq(other.players.iter())`). -/
def playersBeq : List PlayerState → List PlayerState → Bool
  | [], [] => true
  | a :: as_, b :: bs => a.beq b && playersBeq as_ bs
  | _, _ => false

/-- `BoardState` (state.rs).  `rand` holds the modelled PRNG state. -/
structure BoardState where
  supply : CardSet
  trash : List Card
  stacks' : CardSet
  players : List PlayerState
  rand : Option Nat
  turn : Player

/-- `impl PartialEq for BoardState` (state.rs): compares `supply`, `stacks`,
`trash` and the player list; `rand` and `turn` are not compared. -/
def BoardState.beq (a b : BoardState) : Bool :=
  a.supply.beq b.supply && a.stacks'.beq b.stacks' && a.trash == b.trash
    && playersBeq a.players b.players

/-- `BoardState::new` (state.rs). -/
def BoardState.new (seed : Option Nat) : BoardState :=
  { supply := CardSet.empty
    trash := []
    stacks' := CardSet.empty
    players := []
    rand := seed
    turn := Player.P0 }

/-- The fresh `PlayerState` created by `set_players`. -/
def freshPlayer : PlayerState :=
  { hand := []
    played := CardSet.empty
    discard := CardSet.empty
    draw := []
    actions := 0
    buys := 0
    phase := PlayerPhase.NotTurn
    gold := 0 }

/-- `BoardState::set_players` (state.rs). -/
def BoardState.set_players (s : BoardState) (p : Players) : Option BoardState :=
  if s.players.length = 0
  then some { s with players := List.replicate p.toNat freshPlayer }
  else none

/-- `BoardState::add_stack` (state.rs). -/
def BoardState.add_stack (s : BoardState) (card : Card) (count : Nat) :
    Option BoardState :=
  if s.stacks'.contains card then none
  else some { s with stacks' := s.stacks'.insert card 1
                     supply := s.supply.insert card count }

/-- `BoardState::gain_card` (state.rs). -/
def BoardState.gain_card (s : BoardState) (player : Player) (card : Card) :
    Option BoardState :=
  match s.supply.take card 1 with
  | none => none
  | some supply' =>
    match s.players[player.toNat]? with
    | none => none
    | some pl =>
      some { s with supply := supply'
                    players := s.players.set player.toNat
                      { pl with discard := pl.discard.insert card 1 } }

/-- `BoardState::shuffle` (state.rs): requires the seat to exist and its draw
pile to be empty; drains the discard pile into the draw pile, shuffling into
known cards when the RNG is present and anonymizing to `none` otherwise. -/
def BoardState.shuffle (gen : GenFn) (s : BoardState) (player : Player) :
    Option BoardState :=
  match s.players[player.toNat]? with
  | none => none
  | some pl =>
    if pl.draw.length = 0 then
      match s.rand with
      | some r =>
        let res := listShuffle gen (pl.discard.toList.map some) r
        some { s with rand := some res.2
                      players := s.players.set player.toNat
                        { pl with discard := CardSet.empty, draw := res.1 } }
      | none =>
        some { s with players := s.players.set player.toNat
                        { pl with discard := CardSet.empty
                                  draw := pl.discard.toList.map (fun _ => none) } }
    else none

/-- `BoardState::try_modify_player` (state.rs). -/
def BoardState.try_modify_player (s : BoardState) (player : Player)
    (f : PlayerState → Option PlayerState) : Option BoardState :=
  match s.players[player.toNat]? with
  | none => none
  | some pl => (f pl).map fun pl' =>
      { s with players := s.players.set player.toNat pl' }

/-- `BoardState::modify_player` (state.rs). -/
def BoardState.modify_player (s : BoardState) (player : Player)
    (f : PlayerState → PlayerState) : Option BoardState :=
  s.try_modify_player player (fun pl => some (f pl))

/-- `BoardState::draw_card` (state.rs): pops the top of the draw pile,
requiring that a known popped card is not contradicted by the supplied card,
and appends the more informative of the two to the hand. -/
def BoardState.draw_card (s : BoardState) (player : Player)
    (card : Option Card) : Option BoardState :=
  s.try_modify_player player fun pl =>
    match pl.draw.getLast? with
    | none => none
    | some top =>
      if top.isNone || card.isNone || top == card
      then some { pl with draw := pl.draw.dropLast
                          hand := pl.hand ++ [top.or card] }
      else none

/-- `BoardState::change_turn` (state.rs). -/
def BoardState.change_turn (s : BoardState) (player : Player) :
    Option BoardState :=
  if (s.players[player.toNat]?).isSome
  then some { s with turn := player }
  else none

/-- `BoardState::set_phase` (state.rs). -/
def BoardState.set_phase (s : BoardState) (player : Player)
    (phase : PlayerPhase) : Option BoardState :=
  s.modify_player player (fun pl => { pl with phase := phase })

/-- `BoardState::set_buys` (state.rs). -/
def BoardState.set_buys (s : BoardState) (player : Player) (buys : Nat) :
    Option BoardState :=
  s.modify_player player (fun pl => { pl with buys := buys })

/-- `BoardState::set_actions` (state.rs). -/
def BoardState.set_actions (s : BoardState) (player : Player) (actions : Nat) :
    Option BoardState :=
  s.modify_player player (fun pl => { pl with actions := actions })

/-- `BoardState::set_gold` (state.rs). -/
def BoardState.set_gold (s : BoardState) (player : Player) (gold : Nat) :
    Option BoardState :=
  s.modify_player player (fun pl => { pl with gold := gold })

/-- `Vec::remove_item`: remove the first element equal to `a`, failing when
`a` does not occur. -/
def removeItem [BEq α] (l : List α) (a : α) : Option (List α) :=
  if l.contains a then some (l.erase a) else none

/-- `BoardState::discard_hand` (state.rs): remove the first `Some(card)` entry
of the hand, falling back to the first `None` entry; insert the card into the
discard pile. -/
def BoardState.discard_hand (s : BoardState) (player : Player) (card : Card) :
    Option BoardState :=
  s.try_modify_player player fun pl =>
    match removeItem pl.hand (some card) with
    | some hand' =>
      some { pl with hand := hand', discard := pl.discard.insert card 1 }
    | none =>
      match removeItem pl.hand none with
      | some hand' =>
        some { pl with hand := hand', discard := pl.discard.insert card 1 }
      | none => none

/-- `BoardState::discard_played` (state.rs): drain the played pile into the
discard pile, one insertion per drained card. -/
def BoardState.discard_played (s : BoardState) (player : Player) :
    Option BoardState :=
  s.modify_player player fun pl =>
    { pl with played := CardSet.empty
              discard := pl.played.toList.foldl (fun d c => d.insert c 1) pl.discard }

/-- `BoardState::mutate` (state.rs). -/
def BoardState.mutate (gen : GenFn) (s : BoardState) (m : Mutation) :
    Option BoardState :=
  match m with
  | .SetPlayers p => s.set_players p
  | .AddStack card count => s.add_stack card count
  | .GainCard p c => s.gain_card p c
  | .ShuffleDiscard p => s.shuffle gen p
  | .DrawCard p c => s.draw_card p c
  | .ChangeTurn p => s.change_turn p
  | .SetPhase p phase => s.set_phase p phase
  | .SetBuys p buys => s.set_buys p buys
  | .SetActions p actions => s.set_actions p actions
  | .SetGold p gold => s.set_gold p gold
  | .DiscardHand p card => s.discard_hand p card
  | .DiscardPlayed p => s.discard_played p

/-- `BoardState::count_supply` (state.rs). -/
def BoardState.count_supply (s : BoardState) (card : Card) : Option Nat :=
  if s.stacks'.contains card then some (s.supply.count card) else none

/-- `BoardState::mutate_multi` (state.rs): fold the mutations left to right
over the `Option`-carrying state. -/
def BoardState.mutate_multi (gen : GenFn) (s : BoardState)
    (mutations : List Mutation) : Option BoardState :=
  mutations.foldl (fun st m => st.bind (fun x => x.mutate gen m)) (some s)

/-- `BoardState::from_mutations` (state.rs): replay against the empty state
with no RNG. -/
def BoardState.from_mutations (gen : GenFn) (mutations : List Mutation) :
    Option BoardState :=
  (BoardState.new none).mutate_multi gen mutations

end DomState

namespace DomCore

open Dom

/-- `PlayerSet` (lib.rs): a bitset over player ordinals. -/
structure PlayerSet where
  bitset : Nat

/-- `PlayerSet::just` (lib.rs): `1 << (p as u32)`. -/
def PlayerSet.just (p : Player) : PlayerSet := ⟨2 ^ p.toNat⟩

/-- `PlayerSet::contains` (lib.rs): `((bitset >> p) & 1) == 1`. -/
def PlayerSet.contains (s : PlayerSet) (p : Player) : Bool :=
  (s.bitset >>> p.toNat) % 2 == 1

/-- `Reveal` (lib.rs). -/
inductive Reveal where
  | All
  | Just (ps : PlayerSet)

/-- `Mutation` (lib.rs).  This older enum has a one-argument `DrawCard` and a
`RevealTopDeck`.  The variants `RevealHandCards` and `PlayCard` are not
embedded: `BoardState::mutate` dispatches them to `unimplemented!()`, which
aborts the process, so they are outside the accept/reject contract that the
embedded algebra models. -/
inductive Mutation where
  | SetPlayers (p : Players)
  | AddStack (card : Card) (count : Nat)
  | RevealTopDeck (p : Player) (c : Option Card) (r : Reveal)
  | DrawCard (p : Player)
  | GainCard (p : Player) (c : Card)
  | ShuffleDiscard (p : Player)

/-- `PlayerState` (lib.rs).  The top of the `draw` pile is its last
element. -/
structure PlayerState where
  hand : List (Option Card)
  played : CardSet
  discard : CardSet
  draw : List (Option Card)

/-- `impl PartialEq for PlayerState` (lib.rs). -/
def PlayerState.beq (a b : PlayerState) : Bool :=
  a.hand == b.hand && a.played.beq b.played && a.discard.beq b.discard
    && a.draw == b.draw

/-- Element-wise comparison of the two player lists
(`players.iter().eq(other.players.iter())`). -/
def playersBeq : List PlayerState → List PlayerState → Bool
  | [], [] => true
  | a :: as_, b :: bs => a.beq b && playersBeq as_ bs
  | _, _ => false

/-- `BoardState` (lib.rs).  `rand` holds the modelled PRNG state. -/
structure BoardState where
  supply : CardSet
  trash : List Card
  stacks' : CardSet
  players : List PlayerState
  rand : Option Nat
  turn : Player

/-- `impl PartialEq for BoardState` (lib.rs): compares `supply`, `stacks`,
`trash` and the player list; `rand` and `turn` are not compared. -/
def BoardState.beq (a b : BoardState) : Bool :=
  a.supply.beq b.supply && a.stacks'.beq b.stacks' && a.trash == b.trash
    && playersBeq a.players b.players

/-- `BoardState::new` (lib.rs). -/
def BoardState.new (seed : Option Nat) : BoardState :=
  { supply := CardSet.empty
    trash := []
    stacks' := CardSet.empty
    players := []
    rand := seed
    turn := Player.P0 }

/-- `BoardState::active_player` (lib.rs). -/
def BoardState.active_player (s : BoardState) : Player := s.turn

/-- `BoardState::get_player` (lib.rs). -/
def BoardState.get_player (s : BoardState) (p : Player) : Option PlayerState :=
  s.players[p.toNat]?

/-- The fresh `PlayerState` created by `set_players` (lib.rs). -/
def freshPlayer : PlayerState :=
  { hand := []
    played := CardSet.empty
    discard := CardSet.empty
    draw := [] }

/-- `BoardState::set_players` (lib.rs). -/
def BoardState.set_players (s : BoardState) (p : Players) : Option BoardState :=
  if s.players.length = 0
  then some { s with players := List.replicate p.toNat freshPlayer }
  else none

/-- `BoardState::add_stack` (lib.rs). -/
def BoardState.add_stack (s : BoardState) (card : Card) (count : Nat) :
    Option BoardState :=
  if s.stacks'.contains card then none
  else some { s with stacks' := s.stacks'.insert card 1
                     supply := s.supply.insert card count }

/-- `BoardState::gain_card` (lib.rs). -/
def BoardState.gain_card (s : BoardState) (player : Player) (card : Card) :
    Option BoardState :=
  match s.supply.take card 1 with
  | none => none
  | some supply' =>
    match s.players[player.toNat]? with
    | none => none
    | some pl =>
      some { s with supply := supply'
                    players := s.players.set player.toNat
                      { pl with discard := pl.discard.insert card 1 } }

/-- `BoardState::shuffle` (lib.rs): same as the state.rs version. -/
def BoardState.shuffle (gen : GenFn) (s : BoardState) (player : Player) :
    Option BoardState :=
  match s.players[player.toNat]? with
  | none => none
  | some pl =>
    if pl.draw.length = 0 then
      match s.rand with
      | some r =>
        let res := listShuffle gen (pl.discard.toList.map some) r
        some { s with rand := some res.2
                      players := s.players.set player.toNat
                        { pl with discard := CardSet.empty, draw := res.1 } }
      | none =>
        some { s with players := s.players.set player.toNat
                        { pl with discard := CardSet.empty
                                  draw := pl.discard.toList.map (fun _ => none) } }
    else none

/-- `BoardState::reveal_top_deck` (lib.rs): pops the top of the draw pile and
pushes the supplied card in its place.  The source carries the comment
"Should probably check that if we already knew the card we are not changing
its information" — no such check is performed. -/
def BoardState.reveal_top_deck (s : BoardState) (player : Player)
    (card : Option Card) (_reveal : Reveal) : Option BoardState :=
  match s.players[player.toNat]? with
  | none => none
  | some pl =>
    match pl.draw.getLast? with
    | none => none
    | some _ =>
      some { s with players := s.players.set player.toNat
                      { pl with draw := pl.draw.dropLast ++ [card] } }

/-- `BoardState::draw_card` (lib.rs): pops the top of the draw pile into the
hand. -/
def BoardState.draw_card (s : BoardState) (player : Player) :
    Option BoardState :=
  match s.players[player.toNat]? with
  | none => none
  | some pl =>
    match pl.draw.getLast? with
    | none => none
    | some c =>
      some { s with players := s.players.set player.toNat
                      { pl with draw := pl.draw.dropLast
                                hand := pl.hand ++ [c] } }

/-- `BoardState::mutate` (lib.rs). -/
def BoardState.mutate (gen : GenFn) (s : BoardState) (m : Mutation) :
    Option BoardState :=
  match m with
  | .SetPlayers p => s.set_players p
  | .AddStack card count => s.add_stack card count
  | .GainCard p c => s.gain_card p c
  | .ShuffleDiscard p => s.shuffle gen p
  | .RevealTopDeck p c r => s.reveal_top_deck p c r
  | .DrawCard p => s.draw_card p

/-- `BoardState::count_supply` (lib.rs). -/
def BoardState.count_supply (s : BoardState) (card : Card) : Option Nat :=
  if s.stacks'.contains card then some (s.supply.count card) else none

/-- `BoardState::mutate_multi` (lib.rs). -/
def BoardState.mutate_multi (gen : GenFn) (s : BoardState)
    (mutations : List Mutation) : Option BoardState :=
  mutations.foldl (fun st m => st.bind (fun x => x.mutate gen m)) (some s)

/-- `BoardState::from_mutations` (lib.rs): replay against the empty state with
no RNG. -/
def BoardState.from_mutations (gen : GenFn) (mutations : List Mutation) :
    Option BoardState :=
  (BoardState.new none).mutate_multi gen mutations

/-- `Rules` (rules.rs).  The `[Card; 10]` opening set is modelled as a
list. -/
structure Rules where
  players : Players
  set : List Card

/-- `card::lists::FIRST_SET`. -/
def firstSet : List Card :=
  [.Cellar, .Market, .Militia, .Mine, .Moat, .Remodel, .Smithy, .Village,
   .Woodcutter, .Workshop]

/-- `Game` (lib.rs). -/
structure Game where
  state : BoardState

/-- `Game::board_state`. -/
def Game.board_state (g : Game) : BoardState := g.state

/-- `Game::start_stack` (lib.rs). -/
def Game.start_stack (c : Card) (players : Players) : Mutation :=
  .AddStack c (c.starting_count players)

/-- `Game::chain_mutate` (lib.rs): apply one mutation to the staged state,
recording it on success. -/
def Game.chain_mutate (gen : GenFn) (pair : BoardState × List Mutation)
    (m : Mutation) : Option (BoardState × List Mutation) :=
  (pair.1.mutate gen m).map (fun ns => (ns, pair.2 ++ [m]))

/-- `Game::draw_card` (lib.rs): best-effort draw for one player.  If the draw
pile is empty and the discard pile is not, first shuffle; then, if a top card
exists, reveal it to the player and draw it.  Returns the updated game and the
recorded mutations. -/
def Game.draw_card (gen : GenFn) (g : Game) (player : Player) :
    Option (Game × List Mutation) :=
  ((some (g.state, [])).bind (fun st =>
    match st.1.get_player player with
    | none => none
    | some p =>
      if p.draw.getLast?.isNone && !p.discard.toList.isEmpty
      then Game.chain_mutate gen st (.ShuffleDiscard player)
      else some st)).bind (fun st =>
    match st.1.get_player player with
    | none => none
    | some p =>
      match p.draw.getLast? with
      | some card =>
        (Game.chain_mutate gen st
            (.RevealTopDeck player card (.Just (PlayerSet.just player)))).bind
          (fun st2 => Game.chain_mutate gen st2 (.DrawCard player))
      | none => some st)
  |>.map (fun st => (⟨st.1⟩, st.2))

/-- `Enum::<u32>::from_usize` for `Player`, as used by `new_from_seed`; only
ever called with an ordinal below the player count. -/
def playerOfNat : Nat → Player
  | 0 => .P0
  | 1 => .P1
  | 2 => .P2
  | _ => .P3

/-- The `init_muts` vector built by `Game::new_from_seed` (lib.rs): set the
players, add the seven base stacks and the ten chosen stacks, then for each
player gain three Estates and seven Coppers and shuffle them into the draw
pile. -/
def Game.init_muts (rules : Rules) : List Mutation :=
  ([Mutation.SetPlayers rules.players,
    Game.start_stack .Copper rules.players,
    Game.start_stack .Silver rules.players,
    Game.start_stack .Gold rules.players,
    Game.start_stack .Estate rules.players,
    Game.start_stack .Duchy rules.players,
    Game.start_stack .Province rules.players,
    Game.start_stack .Curse rules.players]
   ++ rules.set.map (fun c => Game.start_stack c rules.players))
  ++ (List.range rules.players.toNat).flatMap (fun p =>
       List.replicate 3 (Mutation.GainCard (playerOfNat p) .Estate)
       ++ List.replicate 7 (Mutation.GainCard (playerOfNat p) .Copper)
       ++ [Mutation.ShuffleDiscard (playerOfNat p)])

/-- The five `draw_card` calls per player at the end of `new_from_seed`,
accumulating the recorded mutations. -/
def Game.drawLoop (gen : GenFn) (g : Game) (p : Player) :
    Nat → Option (Game × List Mutation)
  | 0 => some (g, [])
  | n+1 =>
    (Game.draw_card gen g p).bind (fun gm =>
      (Game.drawLoop gen gm.1 p n).map (fun gm2 => (gm2.1, gm.2 ++ gm2.2)))

/-- The per-player loop at the end of `new_from_seed`. -/
def Game.playersLoop (gen : GenFn) (g : Game) :
    List Player → Option (Game × List Mutation)
  | [] => some (g, [])
  | p :: ps =>
    (Game.drawLoop gen g p 5).bind (fun gm =>
      (Game.playersLoop gen gm.1 ps).map (fun gm2 => (gm2.1, gm.2 ++ gm2.2)))

/-- `Game::new_from_seed` (lib.rs).  The source unwraps the two fallible
steps; the model returns `none` where the source would panic. -/
def Game.new_from_seed (gen : GenFn) (rules : Rules) (seed : Nat) :
    Option (Game × List Mutation) :=
  ((BoardState.new (some seed)).mutate_multi gen (Game.init_muts rules)).bind
    fun st =>
      (Game.playersLoop gen ⟨st⟩
          ((List.range rules.players.toNat).map playerOfNat)).map
        fun gm => (gm.1, Game.init_muts rules ++ gm.2)

/-- `DUMMY_SEED` (lib.rs): thirty-two zero bytes, i.e. the zero seed. -/
def DUMMY_SEED : Nat := 0

/-- `Game::new` (lib.rs). -/
def Game.new (gen : GenFn) (rules : Rules) : Option (Game × List Mutation) :=
  Game.new_from_seed gen rules DUMMY_SEED

/-- `Game::new_first_game` (lib.rs). -/
def Game.new_first_game (gen : GenFn) (players : Players) :
    Option (Game × List Mutation) :=
  Game.new gen { players := players, set := firstSet }

end DomCore

namespace DomState

open Dom

/-- Mutation lists accepted in sequence from a given state: every mutation is
accepted by `mutate` on the state produced by its predecessors. -/
def AcceptedSeq (gen : GenFn) : BoardState → List Mutation → Prop
  | _, [] => True
  | s, m :: ms => ∃ t, s.mutate gen m = some t ∧ AcceptedSeq gen t ms

/-- Count of known copies of `c` in an ordered, partially hidden zone. -/
def knownCount (l : List (Option Card)) (c : Card) : Nat := l.count (some c)

/-- Total copies of card `c` across a player's hand, played, discard and draw
zones (known copies for the two ordered zones). -/
def PlayerState.zoneCount (pl : PlayerState) (c : Card) : Nat :=
  knownCount pl.hand c + pl.played.count c + pl.discard.count c
    + knownCount pl.draw c

/-- Total copies of `c` on the whole board: supply, every player's zones, and
the trash. -/
def BoardState.cardTotal (s : BoardState) (c : Card) : Nat :=
  s.supply.count c + (s.players.map (fun pl => pl.zoneCount c)).sum
    + s.trash.count c

/-- The per-card pile totals recorded by `AddStack` along a mutation
history. -/
def updateTotals (T : Card → Nat) : Mutation → Card → Nat
  | .AddStack c n => Function.update T c n
  | _ => T

/-- States reachable from a freshly created board carrying an RNG by accepted
mutations, paired with the pile totals recorded by the `AddStack` mutations
along the way. -/
inductive ReachT (gen : GenFn) : BoardState → (Card → Nat) → Prop where
  | base (seed : Nat) : ReachT gen (BoardState.new (some seed)) (fun _ => 0)
  | step {s s' : BoardState} {T : Card → Nat} {m : Mutation} :
      ReachT gen s T → s.mutate gen m = some s' → ReachT gen s' (updateTotals T m)

/-- The inductive invariant behind the conservation law: the RNG is present,
every hand and draw entry is a known card, piles with a stack carry exactly
their recorded total, and cards without a stack do not occur anywhere. -/
def ConsInv (s : BoardState) (T : Card → Nat) : Prop :=
  s.rand.isSome = true ∧
  (∀ pl ∈ s.players, (∀ x ∈ pl.hand, x ≠ none) ∧ (∀ x ∈ pl.draw, x ≠ none)) ∧
  (∀ c, (s.stacks'.contains c = true → s.cardTotal c = T c) ∧
        (s.stacks'.contains c = false → s.cardTotal c = 0))

/-- A probe player: one anonymized card in hand, Copper under Silver in the
draw pile. -/
def probePlayer : PlayerState :=
  { freshPlayer with hand := [none]
                     draw := [some Card.Copper, some Card.Silver] }

/-- A one-seat probe board for exercising the mutation contracts. -/
def probeBoard : BoardState :=
  { BoardState.new none with players := [probePlayer] }

/-- The probe board after an anonymous draw. -/
def probeDrawn : BoardState :=
  (probeBoard.draw_card Player.P0 none).getD probeBoard

/-- Concrete states of a short accepted mutation history, for exercising the
conservation invariant. -/
def reachB0 : BoardState := BoardState.new (some 0)

/-- `reachB0` after `SetPlayers(Two)`. -/
def reachB1 : BoardState :=
  (reachB0.mutate genModel (.SetPlayers .Two)).getD reachB0

/-- `reachB1` after `AddStack(Copper, 2)`. -/
def reachB2 : BoardState :=
  (reachB1.mutate genModel (.AddStack .Copper 2)).getD reachB0

/-- `reachB2` after `GainCard(P0, Copper)`. -/
def reachB3 : BoardState :=
  (reachB2.mutate genModel (.GainCard .P0 .Copper)).getD reachB0

/-- The empty board after `AddStack(Copper, 1)`, staged for exercising
`mutate_multi`. -/
def c4Stage : BoardState :=
  ((BoardState.new none).mutate genModel (.AddStack .Copper 1)).getD
    (BoardState.new none)

/-- A player with an empty draw pile and two Coppers and a Silver in the
discard pile. -/
def shufflePlayer : PlayerState :=
  { freshPlayer with
      discard := (CardSet.empty.insert Card.Copper 2).insert Card.Silver 1 }

/-- A one-seat board with an RNG, ready to shuffle. -/
def shuffleBoard : BoardState :=
  { BoardState.new (some 3) with players := [shufflePlayer] }

/-- `shuffleBoard` after `ShuffleDiscard(P0)`. -/
def shuffledBoard : BoardState :=
  (shuffleBoard.shuffle genModel Player.P0).getD shuffleBoard

end DomState

namespace DomCore

open Dom

/-- A one-seat board whose draw pile holds a known Copper on top, for
exercising `reveal_top_deck`. -/
def knownTopBoard : BoardState :=
  { BoardState.new none with
      players := [{ freshPlayer with draw := [some Card.Copper] }] }

/-- Spec-side helper for the amended replay law: the replayed player matches
the live player exactly on hand, played and discard, while its draw pile is
the live draw pile with every entry anonymized to `none`. -/
def PlayerState.matchesAnonymized (a b : PlayerState) : Bool :=
  a.hand == b.hand && a.played.beq b.played && a.discard.beq b.discard
    && a.draw == b.draw.map (fun _ => none)

/-- `PlayerState.matchesAnonymized`, element-wise over two player lists. -/
def playersMatchAnonymized : List PlayerState → List PlayerState → Bool
  | [], [] => true
  | a :: as_, b :: bs => a.matchesAnonymized b && playersMatchAnonymized as_ bs
  | _, _ => false

/-- Spec-side helper for the amended replay law: the replayed board agrees
with the live board on supply, stacks and trash, and player-wise up to
draw-pile anonymization. -/
def BoardState.matchesAnonymized (a b : BoardState) : Bool :=
  a.supply.beq b.supply && a.stacks'.beq b.stacks' && a.trash == b.trash
    && playersMatchAnonymized a.players b.players

/-- `Rules` for a two-player first game. -/
def twoRules : Rules := { players := Players.Two, set := firstSet }

/-- `Rules` for a three-player first game. -/
def threeRules : Rules := { players := Players.Three, set := firstSet }

/-- Relation between runs of the engine under two different generators: the
players hold the same number of (possibly different) cards in hand and draw
pile, and identical played and discard piles. -/
def PlayerR (a b : PlayerState) : Prop :=
  a.hand.length = b.hand.length ∧ a.played = b.played ∧
    a.discard = b.discard ∧ a.draw.length = b.draw.length

/-- Relation between board states of runs under two different generators:
everything except the RNG state and the identities of shuffled cards
agrees. -/
def StateR (a b : BoardState) : Prop :=
  a.supply = b.supply ∧ a.stacks' = b.stacks' ∧ a.trash = b.trash ∧
    a.turn = b.turn ∧ a.rand.isSome = b.rand.isSome ∧
    List.Forall₂ PlayerR a.players b.players

/-- Lifting of a relation to `Option`, used to align the two runs step by
step. -/
inductive OptR (R : α → β → Prop) : Option α → Option β → Prop where
  | none : OptR R none none
  | some {a : α} {b : β} : R a b → OptR R (some a) (some b)

/-- The two-player first game built with the concrete generator. -/
def resTwo : Game × List Mutation :=
  (Game.new_first_game genModel Players.Two).getD (⟨BoardState.new none⟩, [])

/-- The three-player first game built with the concrete generator. -/
def resThree : Game × List Mutation :=
  (Game.new_first_game genModel Players.Three).getD (⟨BoardState.new none⟩, [])

end DomCore

-- ===== Theorems =====

set_option maxRecDepth 10000

namespace Dom

theorem CardSet.count_toList (s : CardSet) (c : Card) :
    (CardSet.toList s).count c = s c := by
  cases c <;>
    simp [CardSet.toList, cardList, List.count_append, List.count_replicate]

theorem CardSet.beq_iff_eq' {s t : CardSet} : CardSet.beq s t = true ↔ s = t := by
  constructor
  · intro h
    have hl : CardSet.toList s = CardSet.toList t := by
      simpa [CardSet.beq] using h
    funext c
    have h1 := CardSet.count_toList s c
    have h2 := CardSet.count_toList t c
    rw [hl] at h1
    omega
  · intro h
    subst h
    simp [CardSet.beq]

theorem count_set_add [DecidableEq α] (l : List α) (i : Nat) (b c : α)
    (hc : l[i]? = some c) (x : α) :
    (l.set i b).count x + (if c = x then 1 else 0)
      = l.count x + (if b = x then 1 else 0) := by
  have hi : i < l.length := by
    by_contra hcon
    rw [List.getElem?_eq_none (by omega)] at hc
    exact Option.noConfusion hc
  have hval : l[i] = c := by
    have := List.getElem?_eq_getElem hi
    rw [this] at hc
    exact Option.some.inj hc
  rw [List.set_eq_take_cons_drop b hi]
  conv_rhs => rw [← List.take_append_drop i l, ← @List.getElem_cons_drop _ l i hi]
  simp only [List.count_append, List.count_cons, hval, beq_iff_eq]
  by_cases h1 : c = x <;> by_cases h2 : b = x <;> simp [h1, h2] <;> omega

theorem listSwap_perm [DecidableEq α] (l : List α) (i j : Nat) :
    List.Perm (listSwap l i j) l := by
  unfold listSwap
  split
  · next a b hi hj =>
    rw [List.perm_iff_count]
    intro x
    by_cases hij : i = j
    · subst hij
      rw [hi] at hj
      have hab : a = b := Option.some.inj hj
      subst hab
      rw [List.set_set]
      have h1 := count_set_add l i a a hi x
      omega
    · have hj' : (l.set i b)[j]? = some b := by
        rw [List.getElem?_set_ne hij]
        exact hj
      have h1 := count_set_add (l.set i b) j a b hj' x
      have h2 := count_set_add l i b a hi x
      split_ifs at h1 h2 <;> omega
  · exact List.Perm.refl _

theorem shuffleAux_perm [DecidableEq α] (gen : GenFn) :
    ∀ (k : Nat) (l : List α) (r : Nat), List.Perm (shuffleAux gen k l r).1 l
  | 0, _, _ => List.Perm.refl _
  | k+1, l, r =>
    (shuffleAux_perm gen k (listSwap l (k+1) (gen r (k+2)).1) (gen r (k+2)).2).trans
      (listSwap_perm l (k+1) (gen r (k+2)).1)

theorem listShuffle_perm [DecidableEq α] (gen : GenFn) (l : List α) (r : Nat) :
    List.Perm (listShuffle gen l r).1 l :=
  shuffleAux_perm gen (l.length - 1) l r

theorem perm_count_beq [BEq α] {l1 l2 : List α} (h : List.Perm l1 l2) (a : α) :
    l1.count a = l2.count a := by
  rw [List.count_eq_countP, List.count_eq_countP, h.countP_eq]

end Dom
-- DRAFT: DomState theorems
set_option maxRecDepth 10000

namespace Dom

theorem count_some_map (l : List Card) (c : Card) :
    (l.map some).count (some c) = l.count c := by
  induction l with
  | nil => rfl
  | cons a as ih =>
    simp only [List.map_cons, List.count_cons, ih]
    by_cases h : a = c <;> simp [h]

end Dom

namespace DomState

open Dom

theorem PlayerState.beq_refl (pl : PlayerState) : pl.beq pl = true := by
  simp [PlayerState.beq, CardSet.beq]

theorem playersBeq_refl : ∀ l : List PlayerState, playersBeq l l = true
  | [] => rfl
  | a :: as_ => by
    simp [playersBeq, PlayerState.beq_refl, playersBeq_refl as_]

theorem playersBeq_set :
    ∀ (l : List PlayerState) (i : Nat) (pl0 pl' : PlayerState),
      l[i]? = some pl0 → PlayerState.beq pl' pl0 = true →
      playersBeq (l.set i pl') l = true
  | [], i, _, _, h, _ => by simp at h
  | a :: as_, 0, pl0, pl', h, hbeq => by
    simp only [List.getElem?_cons_zero, Option.some.injEq] at h
    subst h
    simp [List.set, playersBeq, hbeq, playersBeq_refl]
  | a :: as_, i+1, pl0, pl', h, hbeq => by
    simp only [List.getElem?_cons_succ] at h
    simp [List.set, playersBeq, PlayerState.beq_refl,
          playersBeq_set as_ i pl0 pl' h hbeq]

/-- C10: `BoardState` equality ignores not only the RNG but also the
active-player field `turn`, and `PlayerState` equality compares only `hand`,
`played`, `discard` and `draw`; two boards differing only in whose turn it is,
or only in one player's actions, buys, gold or phase, compare equal. -/
theorem c10_equality_ignores_turn_rand_and_counters
    (s : BoardState) (pt : Player) (rd : Option Nat)
    (i a b g : Nat) (ph : PlayerPhase) (pl0 pl : PlayerState)
    (hp : s.players[i]? = some pl0) :
    BoardState.beq { s with turn := pt } s = true ∧
    BoardState.beq { s with rand := rd } s = true ∧
    PlayerState.beq
      { pl with actions := a, buys := b, gold := g, phase := ph } pl = true ∧
    BoardState.beq
      { s with players := s.players.set i { pl0 with actions := a, buys := b, gold := g, phase := ph } }
      s = true := by
  refine ⟨?_, ?_, ?_, ?_⟩
  · simp [BoardState.beq, CardSet.beq, playersBeq_refl]
  · simp [BoardState.beq, CardSet.beq, playersBeq_refl]
  · simp [PlayerState.beq, CardSet.beq]
  · simp [BoardState.beq, CardSet.beq]
    exact playersBeq_set s.players i pl0 _ hp (by simp [PlayerState.beq, CardSet.beq])

/-- C10 witness: the probe board instantiation. -/
theorem c10_witness :
    BoardState.beq { probeBoard with turn := Player.P1 } probeBoard = true ∧
    BoardState.beq { probeBoard with rand := some 7 } probeBoard = true ∧
    PlayerState.beq
      { probePlayer with actions := 4, buys := 5, gold := 6,
                         phase := PlayerPhase.Buy } probePlayer = true ∧
    BoardState.beq
      { probeBoard with players := probeBoard.players.set 0 { probePlayer with actions := 4, buys := 5, gold := 6, phase := PlayerPhase.Buy } }
      probeBoard = true :=
  c10_equality_ignores_turn_rand_and_counters probeBoard Player.P1 (some 7)
    0 4 5 6 PlayerPhase.Buy probePlayer probePlayer rfl

end DomState

namespace DomState

open Dom

/-- C2: `DrawCard(p, optCard)` fails exactly when p is not a seat, the draw
pile is empty, or a known popped top contradicts a supplied known card; on
success one entry is appended to the hand, the popped top when it is known,
otherwise the supplied card. -/
theorem c2_draw_card_contract (s : BoardState) (p : Player) (oc : Option Card) :
    (s.draw_card p oc = none ↔
      s.players[p.toNat]? = none ∨
      ∃ pl, s.players[p.toNat]? = some pl ∧
        (pl.draw = [] ∨
         ∃ c c', pl.draw.getLast? = some (some c) ∧ oc = some c' ∧ c ≠ c'))
    ∧ (∀ s' pl, s.draw_card p oc = some s' → s.players[p.toNat]? = some pl →
        ∃ top, pl.draw.getLast? = some top ∧
          s'.players = s.players.set p.toNat
            { pl with draw := pl.draw.dropLast
                      hand := pl.hand ++ [if top.isSome then top else oc] }) := by
  cases hpl : s.players[p.toNat]? with
  | none =>
    constructor
    · simp [BoardState.draw_card, BoardState.try_modify_player, hpl]
    · intro s' pl hs hpl'
      exact Option.noConfusion hpl'
  | some pl =>
    cases hl : pl.draw.getLast? with
    | none =>
      have hfail : s.draw_card p oc = none := by
        simp only [BoardState.draw_card, BoardState.try_modify_player, hpl, hl]
        rfl
      constructor
      · rw [hfail]
        constructor
        · intro _
          exact Or.inr ⟨pl, rfl, Or.inl (List.getLast?_eq_none_iff.mp hl)⟩
        · intro _
          rfl
      · intro s' pl' hs hpl'
        rw [hfail] at hs
        exact Option.noConfusion hs
    | some top =>
      by_cases hcond : (top.isNone || oc.isNone || top == oc) = true
      · have hsucc : s.draw_card p oc = some { s with players := s.players.set p.toNat { pl with draw := pl.draw.dropLast, hand := pl.hand ++ [top.or oc] } } := by
          simp only [BoardState.draw_card, BoardState.try_modify_player, hpl, hl]
          rw [if_pos hcond]
          rfl
        constructor
        · rw [hsucc]
          constructor
          · intro h
            exact Option.noConfusion h
          · rintro (h | ⟨pl', hpl', h⟩)
            · exact Option.noConfusion h
            · cases Option.some.inj hpl'
              rcases h with h | ⟨c, c', hgl, hoc, hne⟩
              · rw [h] at hl
                exact Option.noConfusion hl
              · rw [hl] at hgl
                cases Option.some.inj hgl
                subst hoc
                simp at hcond
                exact (hne hcond).elim
        · intro s' pl' hs hpl'
          cases Option.some.inj hpl'
          rw [hsucc] at hs
          cases Option.some.inj hs
          refine ⟨top, hl, ?_⟩
          cases top with
          | none => simp [Option.or]
          | some c => simp [Option.or]
      · have hfail : s.draw_card p oc = none := by
          simp only [BoardState.draw_card, BoardState.try_modify_player, hpl, hl]
          rw [if_neg hcond]
          rfl
        constructor
        · rw [hfail]
          constructor
          · intro _
            cases top with
            | none => exact absurd (by simp) hcond
            | some c =>
              cases oc with
              | none => exact absurd (by simp) hcond
              | some c' =>
                refine Or.inr ⟨pl, rfl, Or.inr ⟨c, c', hl, rfl, ?_⟩⟩
                intro hcc
                exact hcond (by simp [hcc])
          · intro _
            rfl
        · intro s' pl' hs hpl'
          rw [hfail] at hs
          exact Option.noConfusion hs

/-- C2 witness: on the probe board (top of the draw pile is a known Silver),
drawing with a contradictory known card fails, and an anonymous draw succeeds
appending the known Silver to the hand. -/
theorem c2_witness :
    probeBoard.draw_card Player.P0 (some Card.Gold) = none ∧
    probeDrawn.players = probeBoard.players.set 0
      { probePlayer with draw := probePlayer.draw.dropLast
                         hand := probePlayer.hand ++ [some Card.Silver] } := by
  constructor
  · exact (c2_draw_card_contract probeBoard Player.P0 (some Card.Gold)).1.mpr
      (Or.inr ⟨probePlayer, rfl, Or.inr ⟨Card.Silver, Card.Gold, rfl, rfl, by decide⟩⟩)
  · have h := (c2_draw_card_contract probeBoard Player.P0 none).2 probeDrawn
      probePlayer rfl rfl
    obtain ⟨top, htop, hpl⟩ := h
    have : top = some Card.Silver := by
      have : probePlayer.draw.getLast? = some (some Card.Silver) := rfl
      rw [this] at htop
      exact (Option.some.inj htop).symm
    subst this
    simpa using hpl

end DomState

namespace DomState

open Dom

/-- C9: `DiscardHand(p, card)` removes the first `Some(card)` hand entry,
falls back to removing the first `None` entry, fails when neither exists, and
on success inserts one copy of the card into the discard pile. -/
theorem c9_discard_hand_contract (s : BoardState) (p : Player) (c : Card)
    (pl : PlayerState) (h : s.players[p.toNat]? = some pl) :
    (some c ∈ pl.hand →
      s.discard_hand p c = some { s with players := s.players.set p.toNat { pl with hand := pl.hand.erase (some c), discard := pl.discard.insert c 1 } })
    ∧ (some c ∉ pl.hand → none ∈ pl.hand →
      s.discard_hand p c = some { s with players := s.players.set p.toNat { pl with hand := pl.hand.erase none, discard := pl.discard.insert c 1 } })
    ∧ (some c ∉ pl.hand → none ∉ pl.hand → s.discard_hand p c = none) := by
  refine ⟨?_, ?_, ?_⟩
  · intro hmem
    simp [BoardState.discard_hand, BoardState.try_modify_player, h,
      removeItem, hmem]
  · intro hno hyes
    simp [BoardState.discard_hand, BoardState.try_modify_player, h,
      removeItem, hno, hyes]
  · intro hno hnone
    simp [BoardState.discard_hand, BoardState.try_modify_player, h,
      removeItem, hno, hnone]

/-- C9 witness: discarding a Moat from a hand holding only an anonymized card
succeeds by consuming the `None` entry. -/
theorem c9_witness :
    probeBoard.discard_hand Player.P0 Card.Moat = some { probeBoard with players := probeBoard.players.set 0 { probePlayer with hand := probePlayer.hand.erase none, discard := probePlayer.discard.insert Card.Moat 1 } } :=
  (c9_discard_hand_contract probeBoard Player.P0 Card.Moat probePlayer rfl).2.1
    (by decide) (by decide)

theorem mutate_multi_run_none (gen : GenFn) (L : List Mutation) :
    (L.foldl (fun st m => st.bind (fun x => BoardState.mutate gen x m)) none)
      = none := by
  induction L with
  | nil => rfl
  | cons m ms ih => simpa using ih

theorem mutate_multi_cons (gen : GenFn) (s : BoardState) (m : Mutation)
    (L : List Mutation) :
    BoardState.mutate_multi gen s (m :: L)
      = (s.mutate gen m).bind (fun t => t.mutate_multi gen L) := by
  cases h : s.mutate gen m with
  | none => simp [BoardState.mutate_multi, h, mutate_multi_run_none]
  | some t => simp [BoardState.mutate_multi, h]

theorem mutate_multi_append (gen : GenFn) (s : BoardState)
    (A B : List Mutation) :
    BoardState.mutate_multi gen s (A ++ B)
      = (s.mutate_multi gen A).bind (fun t => t.mutate_multi gen B) := by
  cases h : s.mutate_multi gen A with
  | none =>
    show BoardState.mutate_multi gen s (A ++ B) = none
    simp only [BoardState.mutate_multi, List.foldl_append]
    simp only [BoardState.mutate_multi] at h
    rw [h]
    exact mutate_multi_run_none gen B
  | some t =>
    show BoardState.mutate_multi gen s (A ++ B) = BoardState.mutate_multi gen t B
    simp only [BoardState.mutate_multi, List.foldl_append]
    simp only [BoardState.mutate_multi] at h
    rw [h]

/-- C4: `mutate_multi` folds left to right and yields a state exactly when
every mutation is accepted in sequence; a rejection anywhere in the list makes
the whole application return `none`, so no proper-prefix state is ever
returned. -/
theorem c4_mutate_multi_all_or_nothing (gen : GenFn) (s : BoardState)
    (L : List Mutation) :
    ((∃ t, s.mutate_multi gen L = some t) ↔ AcceptedSeq gen s L)
    ∧ (∀ L₁ m L₂ t, L = L₁ ++ m :: L₂ → s.mutate_multi gen L₁ = some t →
        t.mutate gen m = none → s.mutate_multi gen L = none) := by
  constructor
  · induction L generalizing s with
    | nil => simp [BoardState.mutate_multi, AcceptedSeq]
    | cons m ms ih =>
      rw [mutate_multi_cons]
      cases h : s.mutate gen m with
      | none => simp [AcceptedSeq, h]
      | some t => simp [AcceptedSeq, h, ih]
  · intro L₁ m L₂ t hL h1 h2
    subst hL
    rw [mutate_multi_append, h1]
    show BoardState.mutate_multi gen t (m :: L₂) = none
    rw [mutate_multi_cons, h2]
    rfl


/-- C4 witness: a singleton list is accepted, and a two-element list whose
second mutation is rejected replays to `none` as a whole. -/
theorem c4_witness :
    (∃ t, (BoardState.new none).mutate_multi genModel
        [Mutation.AddStack .Copper 1] = some t) ∧
    (BoardState.new none).mutate_multi genModel
        [Mutation.AddStack .Copper 1, Mutation.AddStack .Copper 1] = none := by
  constructor
  · exact (c4_mutate_multi_all_or_nothing genModel (BoardState.new none)
      [Mutation.AddStack .Copper 1]).1.mpr ⟨c4Stage, rfl, trivial⟩
  · exact (c4_mutate_multi_all_or_nothing genModel (BoardState.new none)
      [Mutation.AddStack .Copper 1, Mutation.AddStack .Copper 1]).2
      [Mutation.AddStack .Copper 1] (Mutation.AddStack .Copper 1) [] c4Stage
      rfl rfl rfl

end DomState

namespace DomState

open Dom

/-- C7: `ShuffleDiscard(p)` fails exactly when p is not a seat or its draw
pile is non-empty; on success the discard pile is emptied and the draw pile
becomes, with an RNG present, a permutation of the drained discard with every
entry known (per-card counts preserved), and without an RNG a sequence of
|discard| anonymized entries. -/
theorem c7_shuffle_contract (gen : GenFn) (s : BoardState) (p : Player) :
    (s.shuffle gen p = none ↔
      s.players[p.toNat]? = none ∨
      ∃ pl, s.players[p.toNat]? = some pl ∧ pl.draw ≠ [])
    ∧ (∀ s' pl, s.shuffle gen p = some s' → s.players[p.toNat]? = some pl →
        ∃ pl', s'.players = s.players.set p.toNat pl' ∧
          pl'.discard = CardSet.empty ∧
          pl'.hand = pl.hand ∧ pl'.played = pl.played ∧
          (∀ r, s.rand = some r →
            List.Perm pl'.draw (pl.discard.toList.map some) ∧
            (∀ c, pl'.draw.count (some c) = pl.discard.count c) ∧
            (∀ x ∈ pl'.draw, x.isSome = true) ∧
            pl'.draw.length = pl.discard.toList.length) ∧
          (s.rand = none →
            pl'.draw = List.replicate pl.discard.toList.length none)) := by
  cases hpl : s.players[p.toNat]? with
  | none =>
    constructor
    · simp [BoardState.shuffle, hpl]
    · intro s' pl hs hpl'
      exact Option.noConfusion hpl'
  | some pl =>
    by_cases hd : pl.draw.length = 0
    · cases hr : s.rand with
      | some r =>
        have hsucc : s.shuffle gen p = some { s with rand := some (listShuffle gen (pl.discard.toList.map some) r).2, players := s.players.set p.toNat { pl with discard := CardSet.empty, draw := (listShuffle gen (pl.discard.toList.map some) r).1 } } := by
          simp only [BoardState.shuffle, hpl, hr, if_pos hd]
        constructor
        · rw [hsucc]
          constructor
          · intro h
            exact Option.noConfusion h
          · rintro (h | ⟨pl', hpl', hne⟩)
            · exact Option.noConfusion h
            · cases Option.some.inj hpl'
              exact absurd (List.length_eq_zero.mp hd) hne
        · intro s' pl' hs hpl'
          cases Option.some.inj hpl'
          rw [hsucc] at hs
          cases Option.some.inj hs
          refine ⟨_, rfl, rfl, rfl, rfl, ?_, ?_⟩
          · intro r' hr'
            cases Option.some.inj hr'
            dsimp only
            have hperm := listShuffle_perm gen (pl.discard.toList.map some) r
            refine ⟨hperm, ?_, ?_, ?_⟩
            · intro c
              rw [perm_count_beq hperm, count_some_map, CardSet.count_toList]
              rfl
            · intro x hx
              have : x ∈ pl.discard.toList.map some := hperm.mem_iff.mp hx
              obtain ⟨y, _, hy⟩ := List.mem_map.mp this
              rw [← hy]
              rfl
            · rw [hperm.length_eq, List.length_map]
          · intro hn
            exact Option.noConfusion hn
      | none =>
        have hsucc : s.shuffle gen p = some { s with players := s.players.set p.toNat { pl with discard := CardSet.empty, draw := pl.discard.toList.map (fun _ => none) } } := by
          simp only [BoardState.shuffle, hpl, hr, if_pos hd]
        constructor
        · rw [hsucc]
          constructor
          · intro h
            exact Option.noConfusion h
          · rintro (h | ⟨pl', hpl', hne⟩)
            · exact Option.noConfusion h
            · cases Option.some.inj hpl'
              exact absurd (List.length_eq_zero.mp hd) hne
        · intro s' pl' hs hpl'
          cases Option.some.inj hpl'
          rw [hsucc] at hs
          cases Option.some.inj hs
          refine ⟨_, rfl, rfl, rfl, rfl, ?_, ?_⟩
          · intro r' hr'
            exact Option.noConfusion hr'
          · intro _
            dsimp only
            simp [List.map_const']
    · have hfail : s.shuffle gen p = none := by
        simp only [BoardState.shuffle, hpl, if_neg hd]
      constructor
      · rw [hfail]
        constructor
        · intro _
          refine Or.inr ⟨pl, rfl, ?_⟩
          intro h
          rw [h] at hd
          exact hd rfl
        · intro _
          rfl
      · intro s' pl' hs hpl'
        rw [hfail] at hs
        exact Option.noConfusion hs

/-- C7 witness: shuffling while the draw pile is non-empty is rejected, and
shuffling a seat whose discard pile holds two Coppers and a Silver produces a
known permutation of those three cards. -/
theorem c7_witness :
    probeBoard.shuffle genModel Player.P0 = none ∧
    (∃ pl', shuffledBoard.players = shuffleBoard.players.set Player.P0.toNat pl' ∧
      pl'.discard = CardSet.empty ∧
      pl'.hand = shufflePlayer.hand ∧ pl'.played = shufflePlayer.played ∧
      (∀ r, shuffleBoard.rand = some r →
        List.Perm pl'.draw (shufflePlayer.discard.toList.map some) ∧
        (∀ c, pl'.draw.count (some c) = shufflePlayer.discard.count c) ∧
        (∀ x ∈ pl'.draw, x.isSome = true) ∧
        pl'.draw.length = shufflePlayer.discard.toList.length) ∧
      (shuffleBoard.rand = none →
        pl'.draw = List.replicate shufflePlayer.discard.toList.length none)) := by
  constructor
  · exact (c7_shuffle_contract genModel probeBoard Player.P0).1.mpr
      (Or.inr ⟨probePlayer, rfl, by decide⟩)
  · exact (c7_shuffle_contract genModel shuffleBoard Player.P0).2
      shuffledBoard shufflePlayer rfl rfl

end DomState

namespace DomState

open Dom

theorem sum_map_set (f : PlayerState → Nat) :
    ∀ (l : List PlayerState) (i : Nat) (pl pl' : PlayerState),
      l[i]? = some pl →
      ((l.set i pl').map f).sum + f pl = (l.map f).sum + f pl'
  | [], i, pl, pl', h => by simp at h
  | a :: as_, 0, pl, pl', h => by
    simp only [List.getElem?_cons_zero, Option.some.injEq] at h
    subst h
    simp only [List.set, List.map_cons, List.sum_cons]
    omega
  | a :: as_, i+1, pl, pl', h => by
    simp only [List.getElem?_cons_succ] at h
    have := sum_map_set f as_ i pl pl' h
    simp only [List.set, List.map_cons, List.sum_cons]
    omega

theorem cardTotal_setPlayer {s : BoardState} {i : Nat} {pl : PlayerState}
    (pl' : PlayerState) (h : s.players[i]? = some pl) (c : Card) :
    BoardState.cardTotal { s with players := s.players.set i pl' } c
        + pl.zoneCount c
      = s.cardTotal c + pl'.zoneCount c := by
  have := sum_map_set (fun q => PlayerState.zoneCount q c) s.players i pl pl' h
  dsimp only at this
  simp only [BoardState.cardTotal]
  omega

theorem consInv_of_setPlayer {s : BoardState} {T : Card → Nat} {i : Nat}
    {pl : PlayerState} (pl' : PlayerState)
    (h : s.players[i]? = some pl)
    (hz : ∀ c, pl'.zoneCount c = pl.zoneCount c)
    (hk : (∀ x ∈ pl'.hand, x ≠ none) ∧ (∀ x ∈ pl'.draw, x ≠ none))
    (inv : ConsInv s T) :
    ConsInv { s with players := s.players.set i pl' } T := by
  obtain ⟨hrand, hknown, htot⟩ := inv
  refine ⟨hrand, ?_, ?_⟩
  · intro q hq
    rcases List.mem_or_eq_of_mem_set hq with hq | hq
    · exact hknown q hq
    · subst hq
      exact hk
  · intro c
    have hset := cardTotal_setPlayer pl' h c
    have hzc := hz c
    constructor
    · intro hc
      have := (htot c).1 hc
      omega
    · intro hc
      have := (htot c).2 hc
      omega

theorem consInv_of_setPlayer_rand {s : BoardState} {T : Card → Nat} {i : Nat}
    {pl : PlayerState} (rd : Nat) (pl' : PlayerState)
    (h : s.players[i]? = some pl)
    (hz : ∀ c, pl'.zoneCount c = pl.zoneCount c)
    (hk : (∀ x ∈ pl'.hand, x ≠ none) ∧ (∀ x ∈ pl'.draw, x ≠ none))
    (inv : ConsInv s T) :
    ConsInv { s with rand := some rd, players := s.players.set i pl' } T := by
  obtain ⟨hrand, hknown, htot⟩ := inv
  refine ⟨rfl, ?_, ?_⟩
  · intro q hq
    rcases List.mem_or_eq_of_mem_set hq with hq | hq
    · exact hknown q hq
    · subst hq
      exact hk
  · intro c
    have hsum := sum_map_set (fun q => PlayerState.zoneCount q c) s.players i pl pl' h
    dsimp only at hsum
    have hzc := hz c
    have h1 := (htot c).1
    have h2 := (htot c).2
    simp only [BoardState.cardTotal, CardSet.count] at h1 h2 ⊢
    constructor
    · intro hc
      have := h1 hc
      omega
    · intro hc
      have := h2 hc
      omega

theorem foldl_insert_count :
    ∀ (l : List Card) (d : CardSet) (x : Card),
      (l.foldl (fun d c => d.insert c 1) d) x = d x + l.count x
  | [], d, x => by simp
  | c :: cs, d, x => by
    simp only [List.foldl_cons, List.count_cons]
    rw [foldl_insert_count cs (d.insert c 1) x]
    simp only [CardSet.insert, beq_iff_eq]
    by_cases h : x = c
    · subst h
      simp
      omega
    · have h' : ¬(c = x) := fun hc => h hc.symm
      simp [h, h']

end DomState

namespace DomState

open Dom

theorem consInv_step (gen : GenFn) {s s' : BoardState} {T : Card → Nat}
    {m : Mutation} (inv : ConsInv s T) (hm : s.mutate gen m = some s') :
    ConsInv s' (updateTotals T m) := by
  obtain ⟨hrand, hknown, htot⟩ := inv
  cases m with
  | SetPlayers n =>
    simp only [BoardState.mutate, BoardState.set_players] at hm
    split at hm
    case isTrue hlen =>
      cases Option.some.inj hm
      have hupd : updateTotals T (Mutation.SetPlayers n) = T := rfl
      rw [hupd]
      have hempty : s.players = [] := List.length_eq_zero.mp hlen
      refine ⟨hrand, ?_, ?_⟩
      · intro q hq
        have := List.eq_of_mem_replicate hq
        subst this
        exact ⟨by intro x hx; simp [freshPlayer] at hx,
               by intro x hx; simp [freshPlayer] at hx⟩
      · intro c
        have hz : ((List.replicate n.toNat freshPlayer).map
            (fun pl => pl.zoneCount c)).sum = 0 := by
          rw [List.map_replicate]
          have : freshPlayer.zoneCount c = 0 := rfl
          rw [this]
          simp
        have hold := htot c
        have holdsum : (s.players.map (fun pl => pl.zoneCount c)).sum = 0 := by
          rw [hempty]
          rfl
        constructor
        · intro hc
          have := hold.1 hc
          simp only [BoardState.cardTotal, hz] at *
          omega
        · intro hc
          have := hold.2 hc
          simp only [BoardState.cardTotal, hz] at *
          omega
    case isFalse => exact Option.noConfusion hm
  | ChangeTurn p =>
    simp only [BoardState.mutate, BoardState.change_turn] at hm
    split at hm
    case isTrue =>
      cases Option.some.inj hm
      exact ⟨hrand, hknown, htot⟩
    case isFalse => exact Option.noConfusion hm
  | SetPhase p ph =>
    cases hpl : s.players[p.toNat]? with
    | none =>
      simp only [BoardState.mutate, BoardState.set_phase,
        BoardState.modify_player, BoardState.try_modify_player, hpl] at hm
      exact Option.noConfusion hm
    | some pl =>
      simp only [BoardState.mutate, BoardState.set_phase,
        BoardState.modify_player, BoardState.try_modify_player, hpl,
        Option.map_some', Option.some.injEq] at hm
      subst hm
      exact consInv_of_setPlayer _ hpl (fun c => rfl)
        (hknown pl (List.getElem?_mem hpl)) ⟨hrand, hknown, htot⟩
  | SetBuys p n =>
    cases hpl : s.players[p.toNat]? with
    | none =>
      simp only [BoardState.mutate, BoardState.set_buys,
        BoardState.modify_player, BoardState.try_modify_player, hpl] at hm
      exact Option.noConfusion hm
    | some pl =>
      simp only [BoardState.mutate, BoardState.set_buys,
        BoardState.modify_player, BoardState.try_modify_player, hpl,
        Option.map_some', Option.some.injEq] at hm
      subst hm
      exact consInv_of_setPlayer _ hpl (fun c => rfl)
        (hknown pl (List.getElem?_mem hpl)) ⟨hrand, hknown, htot⟩
  | SetActions p n =>
    cases hpl : s.players[p.toNat]? with
    | none =>
      simp only [BoardState.mutate, BoardState.set_actions,
        BoardState.modify_player, BoardState.try_modify_player, hpl] at hm
      exact Option.noConfusion hm
    | some pl =>
      simp only [BoardState.mutate, BoardState.set_actions,
        BoardState.modify_player, BoardState.try_modify_player, hpl,
        Option.map_some', Option.some.injEq] at hm
      subst hm
      exact consInv_of_setPlayer _ hpl (fun c => rfl)
        (hknown pl (List.getElem?_mem hpl)) ⟨hrand, hknown, htot⟩
  | SetGold p n =>
    cases hpl : s.players[p.toNat]? with
    | none =>
      simp only [BoardState.mutate, BoardState.set_gold,
        BoardState.modify_player, BoardState.try_modify_player, hpl] at hm
      exact Option.noConfusion hm
    | some pl =>
      simp only [BoardState.mutate, BoardState.set_gold,
        BoardState.modify_player, BoardState.try_modify_player, hpl,
        Option.map_some', Option.some.injEq] at hm
      subst hm
      exact consInv_of_setPlayer _ hpl (fun c => rfl)
        (hknown pl (List.getElem?_mem hpl)) ⟨hrand, hknown, htot⟩
  | DiscardPlayed p =>
    cases hpl : s.players[p.toNat]? with
    | none =>
      simp only [BoardState.mutate, BoardState.discard_played,
        BoardState.modify_player, BoardState.try_modify_player, hpl] at hm
      exact Option.noConfusion hm
    | some pl =>
      simp only [BoardState.mutate, BoardState.discard_played,
        BoardState.modify_player, BoardState.try_modify_player, hpl,
        Option.map_some', Option.some.injEq] at hm
      subst hm
      refine consInv_of_setPlayer _ hpl ?_
        (hknown pl (List.getElem?_mem hpl)) ⟨hrand, hknown, htot⟩
      intro c
      simp only [PlayerState.zoneCount, foldl_insert_count,
        CardSet.count_toList, CardSet.count, CardSet.empty]
      omega
  | AddStack card cnt =>
    simp only [BoardState.mutate, BoardState.add_stack] at hm
    split at hm
    case isTrue => exact Option.noConfusion hm
    case isFalse hcon =>
      cases Option.some.inj hm
      have hconf : s.stacks'.contains card = false := by
        cases h : s.stacks'.contains card
        · rfl
        · exact absurd h hcon
      have hupd : updateTotals T (Mutation.AddStack card cnt)
          = Function.update T card cnt := rfl
      rw [hupd]
      refine ⟨hrand, hknown, ?_⟩
      intro c
      have hold := htot c
      by_cases hcc : c = card
      · subst hcc
        have htotal0 : s.cardTotal c = 0 := hold.2 hconf
        constructor
        · intro _
          have h1 : BoardState.cardTotal { s with stacks' := s.stacks'.insert c 1, supply := s.supply.insert c cnt } c = s.cardTotal c + cnt := by
            simp [BoardState.cardTotal, CardSet.count, CardSet.insert]
            omega
          rw [h1, htotal0, Function.update_same]
          omega
        · intro hc
          exfalso
          simp [CardSet.contains, CardSet.insert] at hc
      · have hsup : BoardState.cardTotal { s with stacks' := s.stacks'.insert card 1, supply := s.supply.insert card cnt } c = s.cardTotal c := by
          simp only [BoardState.cardTotal, CardSet.count, CardSet.insert, if_neg hcc]
        have hcontains : (s.stacks'.insert card 1).contains c = s.stacks'.contains c := by
          simp [CardSet.contains, CardSet.insert, hcc]
        rw [Function.update_noteq hcc]
        constructor
        · intro hc
          rw [hsup]
          exact hold.1 (by rw [← hcontains]; exact hc)
        · intro hc
          rw [hsup]
          exact hold.2 (by rw [← hcontains]; exact hc)
  | DiscardHand p card =>
    cases hpl : s.players[p.toNat]? with
    | none =>
      simp only [BoardState.mutate, BoardState.discard_hand,
        BoardState.try_modify_player, hpl] at hm
      exact Option.noConfusion hm
    | some pl =>
      have hknownpl := hknown pl (List.getElem?_mem hpl)
      have hnone : pl.hand.contains (none : Option Card) = false := by
        cases h : pl.hand.contains (none : Option Card)
        · rfl
        · exact absurd (hknownpl.1 none (List.elem_iff.mp h)) (by simp)
      cases hc1 : pl.hand.contains (some card) with
      | false =>
        simp only [BoardState.mutate, BoardState.discard_hand,
          BoardState.try_modify_player, hpl, removeItem, hc1, hnone,
          Bool.false_eq_true, if_false] at hm
        exact Option.noConfusion hm
      | true =>
        simp only [BoardState.mutate, BoardState.discard_hand,
          BoardState.try_modify_player, hpl, removeItem, hc1,
          eq_self_iff_true, if_true, Option.map_some', Option.some.injEq] at hm
        subst hm
        have hmem : (some card) ∈ pl.hand := List.elem_iff.mp hc1
        have hpos : 0 < pl.hand.count (some card) := List.count_pos_iff.mpr hmem
        refine consInv_of_setPlayer _ hpl ?_ ?_ ⟨hrand, hknown, htot⟩
        · intro c
          simp only [PlayerState.zoneCount, knownCount, List.count_erase,
            CardSet.insert, CardSet.count]
          by_cases hcc : c = card
          · subst hcc
            simp only [if_pos rfl, beq_self_eq_true, if_true]
            omega
          · have hbe : ((some card : Option Card) == some c) = false := by
              rw [beq_eq_false_iff_ne]
              intro h
              exact hcc (Option.some.inj h).symm
            simp [hbe, hcc]
        · exact ⟨fun x hx => hknownpl.1 x (List.mem_of_mem_erase hx),
                 hknownpl.2⟩
  | DrawCard p oc =>
    cases hpl : s.players[p.toNat]? with
    | none =>
      simp only [BoardState.mutate, BoardState.draw_card,
        BoardState.try_modify_player, hpl] at hm
      exact Option.noConfusion hm
    | some pl =>
      have hknownpl := hknown pl (List.getElem?_mem hpl)
      cases hl : pl.draw.getLast? with
      | none =>
        simp only [BoardState.mutate, BoardState.draw_card,
          BoardState.try_modify_player, hpl, hl] at hm
        exact Option.noConfusion hm
      | some top =>
        have hne : pl.draw ≠ [] := by
          intro h
          rw [h] at hl
          exact Option.noConfusion hl
        have hgl : pl.draw.getLast hne = top := by
          have := List.getLast?_eq_getLast pl.draw hne
          rw [hl] at this
          exact (Option.some.inj this).symm
        have hsplit : pl.draw.dropLast ++ [top] = pl.draw := by
          rw [← hgl]
          exact List.dropLast_append_getLast hne
        have htopmem : top ∈ pl.draw := by
          rw [← hsplit]
          exact List.mem_append.mpr (Or.inr (List.mem_singleton.mpr rfl))
        have htopne : top ≠ none := hknownpl.2 top htopmem
        obtain ⟨t, ht⟩ := Option.ne_none_iff_exists'.mp htopne
        have hor : top.or oc = top := by
          rw [ht]
          rfl
        by_cases hcond : (top.isNone || oc.isNone || top == oc) = true
        · simp only [BoardState.mutate, BoardState.draw_card,
            BoardState.try_modify_player, hpl, hl, if_pos hcond,
            Option.map_some', Option.some.injEq] at hm
          subst hm
          refine consInv_of_setPlayer _ hpl ?_ ?_ ⟨hrand, hknown, htot⟩
          · intro c
            simp only [PlayerState.zoneCount, knownCount]
            conv_rhs => rw [← hsplit]
            rw [hor]
            simp only [List.count_append, List.count_cons, List.count_nil]
            omega
          · constructor
            · intro x hx
              rcases List.mem_append.mp hx with hx | hx
              · exact hknownpl.1 x hx
              · have hx' := List.mem_singleton.mp hx
                subst hx'
                rw [hor, ht]
                simp
            · intro x hx
              refine hknownpl.2 x ?_
              rw [← hsplit]
              exact List.mem_append.mpr (Or.inl hx)
        · simp only [BoardState.mutate, BoardState.draw_card,
            BoardState.try_modify_player, hpl, hl, if_neg hcond] at hm
          exact Option.noConfusion hm
  | GainCard p card =>
    cases htake : s.supply.take card 1 with
    | none =>
      simp only [BoardState.mutate, BoardState.gain_card, htake] at hm
      exact Option.noConfusion hm
    | some supply' =>
      cases hpl : s.players[p.toNat]? with
      | none =>
        simp only [BoardState.mutate, BoardState.gain_card, htake, hpl] at hm
        exact Option.noConfusion hm
      | some pl =>
        simp only [BoardState.mutate, BoardState.gain_card, htake, hpl,
          Option.some.injEq] at hm
        subst hm
        simp only [CardSet.take] at htake
        split at htake
        case isTrue => exact Option.noConfusion htake
        case isFalse hge =>
          cases Option.some.inj htake
          have hupd : updateTotals T (Mutation.GainCard p card) = T := rfl
          rw [hupd]
          refine ⟨hrand, ?_, ?_⟩
          · intro q hq
            rcases List.mem_or_eq_of_mem_set hq with hq | hq
            · exact hknown q hq
            · subst hq
              exact hknown pl (List.getElem?_mem hpl)
          · intro c
            have hsum := sum_map_set (fun q => PlayerState.zoneCount q c) s.players p.toNat pl { pl with discard := pl.discard.insert card 1 } hpl
            dsimp only at hsum
            have hzone : PlayerState.zoneCount { pl with discard := pl.discard.insert card 1 } c = pl.zoneCount c + (if c = card then 1 else 0) := by
              simp only [PlayerState.zoneCount, CardSet.insert, CardSet.count]
              by_cases hcc : c = card
              · subst hcc
                simp
                omega
              · simp [hcc]
            rw [hzone] at hsum
            have h1 := (htot c).1
            have h2 := (htot c).2
            simp only [BoardState.cardTotal, CardSet.count] at h1 h2 ⊢
            constructor
            · intro hc
              have := h1 hc
              by_cases hcc : c = card
              · subst hcc
                simp only [eq_self_iff_true, if_true] at hsum ⊢
                omega
              · simp only [if_neg hcc] at hsum ⊢
                omega
            · intro hc
              have := h2 hc
              by_cases hcc : c = card
              · subst hcc
                simp only [eq_self_iff_true, if_true] at hsum ⊢
                omega
              · simp only [if_neg hcc] at hsum ⊢
                omega
  | ShuffleDiscard p =>
    cases hpl : s.players[p.toNat]? with
    | none =>
      simp only [BoardState.mutate, BoardState.shuffle, hpl] at hm
      exact Option.noConfusion hm
    | some pl =>
      have hknownpl := hknown pl (List.getElem?_mem hpl)
      obtain ⟨r, hr⟩ := Option.isSome_iff_exists.mp hrand
      by_cases hd : pl.draw.length = 0
      · simp only [BoardState.mutate, BoardState.shuffle, hpl, hr, if_pos hd,
          Option.some.injEq] at hm
        subst hm
        have hperm := listShuffle_perm gen (pl.discard.toList.map some) r
        have hdraw0 : pl.draw = [] := List.length_eq_zero.mp hd
        refine consInv_of_setPlayer_rand _ _ hpl ?_ ?_ ⟨hrand, hknown, htot⟩
        · intro c
          simp only [PlayerState.zoneCount, knownCount, hdraw0]
          rw [perm_count_beq hperm, count_some_map, CardSet.count_toList]
          simp only [CardSet.empty, CardSet.count, List.count_nil]
          omega
        · refine ⟨hknownpl.1, ?_⟩
          intro x hx
          have hx' : x ∈ pl.discard.toList.map some := hperm.mem_iff.mp hx
          obtain ⟨y, _, hy⟩ := List.mem_map.mp hx'
          rw [← hy]
          simp
      · simp only [BoardState.mutate, BoardState.shuffle, hpl, hr,
          if_neg hd] at hm
        exact Option.noConfusion hm
end DomState

namespace DomState

open Dom

theorem consInv_of_reach {gen : GenFn} {s : BoardState} {T : Card → Nat}
    (h : ReachT gen s T) : ConsInv s T := by
  induction h with
  | base seed =>
    refine ⟨rfl, ?_, ?_⟩
    · intro q hq
      simp [BoardState.new] at hq
    · intro c
      exact ⟨fun hc => Bool.noConfusion hc, fun _ => rfl⟩
  | step hprev hm ih =>
    exact consInv_step _ ih hm

/-- C8: in every state reachable from a freshly created board carrying an RNG
by accepted mutations, for every card with a stack, the supply count plus the
copies in every player's hand, played, discard and draw zones plus the trash
count equals the pile total recorded by `AddStack` for that card. -/
theorem c8_card_conservation (gen : GenFn) (s : BoardState) (T : Card → Nat)
    (h : ReachT gen s T) :
    ∀ c, s.stacks'.contains c = true → s.cardTotal c = T c :=
  fun c hc => ((consInv_of_reach h).2.2 c).1 hc

/-- C8 witness: after `SetPlayers(Two)`, `AddStack(Copper, 2)` and
`GainCard(P0, Copper)`, the Copper total on the board equals the recorded
pile total of 2. -/
theorem c8_witness : reachB3.cardTotal Card.Copper = 2 := by
  have h0 : ReachT genModel reachB0 (fun _ => 0) := ReachT.base 0
  have h1 := ReachT.step h0
    (rfl : reachB0.mutate genModel (Mutation.SetPlayers Players.Two) = some reachB1)
  have h2 := ReachT.step h1
    (rfl : reachB1.mutate genModel (Mutation.AddStack Card.Copper 2) = some reachB2)
  have h3 := ReachT.step h2
    (rfl : reachB2.mutate genModel (Mutation.GainCard Player.P0 Card.Copper) = some reachB3)
  have hc := c8_card_conservation genModel reachB3 _ h3 Card.Copper (by decide)
  exact hc.trans (by decide)

end DomState

namespace DomCore

open Dom

/-- C3 (code bug): `lib.rs::reveal_top_deck` performs no information check —
the source itself carries the comment "Should probably check that if we
already knew the card we are not changing its information".  On a board whose
draw-pile top is a known Copper, revealing `Some(Gold)` is accepted and
rewrites the top to Gold, and revealing `None` is accepted and anonymizes the
known top, both contrary to the information-preservation rule the claim (and
the newer `state.rs::draw_card`) requires. -/
theorem c3_reveal_top_deck_overwrites :
    ((knownTopBoard.reveal_top_deck Player.P0 (some Card.Gold)
        Reveal.All).bind
      (fun s' => s'.players[0]?.map PlayerState.draw)
        = some [some Card.Gold])
    ∧ ((knownTopBoard.reveal_top_deck Player.P0 none Reveal.All).bind
      (fun s' => s'.players[0]?.map PlayerState.draw)
        = some [none]) := by
  constructor
  · rfl
  · rfl

end DomCore

namespace DomCore

open Dom

theorem optR_some_right {α β : Type} {R : α → β → Prop} {x : Option α} {b : β}
    (h : OptR R x (some b)) : ∃ a, x = some a ∧ R a b := by
  cases h with
  | some hr => exact ⟨_, rfl, hr⟩

theorem forallTwo_getElem {α β : Type} {R : α → β → Prop} :
    ∀ {l1 : List α} {l2 : List β}, List.Forall₂ R l1 l2 →
      ∀ (i : Nat), OptR R l1[i]? l2[i]?
  | [], [], _, i => by
    simp only [List.getElem?_nil]
    exact OptR.none
  | a :: t1, b :: t2, h, 0 => by
    simp only [List.getElem?_cons_zero]
    exact OptR.some (List.forall₂_cons.mp h).1
  | a :: t1, b :: t2, h, i+1 => by
    simp only [List.getElem?_cons_succ]
    exact forallTwo_getElem (List.forall₂_cons.mp h).2 i

theorem forallTwo_set {α β : Type} {R : α → β → Prop} {a : α} {b : β} :
    ∀ {l1 : List α} {l2 : List β}, List.Forall₂ R l1 l2 → R a b →
      ∀ (i : Nat), List.Forall₂ R (l1.set i a) (l2.set i b)
  | [], [], _, _, _ => List.Forall₂.nil
  | x :: t1, y :: t2, h, hab, 0 => by
    obtain ⟨hxy, ht⟩ := List.forall₂_cons.mp h
    simp only [List.set]
    exact List.forall₂_cons.mpr ⟨hab, ht⟩
  | x :: t1, y :: t2, h, hab, i+1 => by
    obtain ⟨hxy, ht⟩ := List.forall₂_cons.mp h
    simp only [List.set]
    exact List.forall₂_cons.mpr ⟨hxy, forallTwo_set ht hab i⟩

theorem forallTwo_replicate {α β : Type} {R : α → β → Prop} {a : α} {b : β}
    (h : R a b) : ∀ n, List.Forall₂ R (List.replicate n a) (List.replicate n b)
  | 0 => List.Forall₂.nil
  | n+1 => List.forall₂_cons.mpr ⟨h, forallTwo_replicate h n⟩

theorem draw_length_zero_iff {l1 l2 : List (Option Card)}
    (h : l1.length = l2.length) : l1 = [] ↔ l2 = [] := by
  constructor
  · intro h1
    rw [h1] at h
    exact List.length_eq_zero.mp h.symm
  · intro h2
    rw [h2] at h
    exact List.length_eq_zero.mp h

end DomCore

namespace DomCore

open Dom

theorem stateR_mutate (gen1 gen2 : GenFn) {s t : BoardState}
    (h : StateR s t) (m : Mutation) :
    OptR StateR (s.mutate gen1 m) (t.mutate gen2 m) := by
  obtain ⟨hsup, hst, htr, htu, hrand, hpl⟩ := h
  have hlen := hpl.length_eq
  cases m with
  | SetPlayers n =>
    simp only [BoardState.mutate, BoardState.set_players]
    by_cases h0 : s.players.length = 0
    · rw [if_pos h0, if_pos (by omega)]
      exact OptR.some ⟨hsup, hst, htr, htu, hrand,
        forallTwo_replicate ⟨rfl, rfl, rfl, rfl⟩ n.toNat⟩
    · rw [if_neg h0, if_neg (by omega)]
      exact OptR.none
  | AddStack card cnt =>
    simp only [BoardState.mutate, BoardState.add_stack, hst]
    by_cases hc : t.stacks'.contains card = true
    · rw [if_pos hc, if_pos hc]
      exact OptR.none
    · rw [if_neg hc, if_neg hc]
      exact OptR.some ⟨by rw [hsup], rfl, htr, htu, hrand, hpl⟩
  | GainCard p card =>
    simp only [BoardState.mutate, BoardState.gain_card, hsup]
    cases htake : t.supply.take card 1 with
    | none => exact OptR.none
    | some sup' =>
      have hrel := forallTwo_getElem hpl p.toNat
      cases hg1 : s.players[p.toNat]? with
      | none =>
        cases hg2 : t.players[p.toNat]? with
        | none => exact OptR.none
        | some pl2 =>
          rw [hg1, hg2] at hrel
          cases hrel
      | some pl1 =>
        cases hg2 : t.players[p.toNat]? with
        | none =>
          rw [hg1, hg2] at hrel
          cases hrel
        | some pl2 =>
          rw [hg1, hg2] at hrel
          cases hrel with
          | some hr =>
            refine OptR.some ⟨rfl, hst, htr, htu, hrand, ?_⟩
            refine forallTwo_set hpl ?_ p.toNat
            exact ⟨hr.1, hr.2.1, by rw [hr.2.2.1], hr.2.2.2⟩
  | ShuffleDiscard p =>
    simp only [BoardState.mutate, BoardState.shuffle]
    have hrel := forallTwo_getElem hpl p.toNat
    cases hg1 : s.players[p.toNat]? with
    | none =>
      cases hg2 : t.players[p.toNat]? with
      | none => exact OptR.none
      | some pl2 =>
        rw [hg1, hg2] at hrel
        cases hrel
    | some pl1 =>
      cases hg2 : t.players[p.toNat]? with
      | none =>
        rw [hg1, hg2] at hrel
        cases hrel
      | some pl2 =>
        rw [hg1, hg2] at hrel
        cases hrel with
        | some hr =>
          obtain ⟨hh, hpld, hdis, hdr⟩ := hr
          dsimp only
          by_cases hd : pl1.draw.length = 0
          · rw [if_pos hd, if_pos (show pl2.draw.length = 0 by omega)]
            cases hr1 : s.rand with
            | none =>
              cases hr2 : t.rand with
              | none =>
                refine OptR.some ⟨hsup, hst, htr, htu, ?_, ?_⟩
                · rfl
                · refine forallTwo_set hpl ?_ p.toNat
                  exact ⟨hh, hpld, rfl, by rw [hdis]⟩
              | some r2 =>
                rw [hr1, hr2] at hrand
                simp at hrand
            | some r1 =>
              cases hr2 : t.rand with
              | none =>
                rw [hr1, hr2] at hrand
                simp at hrand
              | some r2 =>
                refine OptR.some ⟨hsup, hst, htr, htu, rfl, ?_⟩
                refine forallTwo_set hpl ?_ p.toNat
                refine ⟨hh, hpld, rfl, ?_⟩
                have hp1 := (listShuffle_perm gen1
                  (pl1.discard.toList.map some) r1).length_eq
                have hp2 := (listShuffle_perm gen2
                  (pl2.discard.toList.map some) r2).length_eq
                rw [hp1, hp2, hdis]
          · rw [if_neg hd, if_neg (show ¬pl2.draw.length = 0 by omega)]
            exact OptR.none
  | RevealTopDeck p c r =>
    simp only [BoardState.mutate, BoardState.reveal_top_deck]
    have hrel := forallTwo_getElem hpl p.toNat
    cases hg1 : s.players[p.toNat]? with
    | none =>
      cases hg2 : t.players[p.toNat]? with
      | none => exact OptR.none
      | some pl2 =>
        rw [hg1, hg2] at hrel
        cases hrel
    | some pl1 =>
      cases hg2 : t.players[p.toNat]? with
      | none =>
        rw [hg1, hg2] at hrel
        cases hrel
      | some pl2 =>
        rw [hg1, hg2] at hrel
        cases hrel with
        | some hr =>
          obtain ⟨hh, hpld, hdis, hdr⟩ := hr
          dsimp only
          cases hl1 : pl1.draw.getLast? with
          | none =>
            cases hl2 : pl2.draw.getLast? with
            | none => exact OptR.none
            | some c2 =>
              have h1 : pl1.draw = [] := List.getLast?_eq_none_iff.mp hl1
              have h2 : pl2.draw = [] := (draw_length_zero_iff hdr).mp h1
              rw [h2] at hl2
              exact Option.noConfusion hl2
          | some c1 =>
            cases hl2 : pl2.draw.getLast? with
            | none =>
              have h2 : pl2.draw = [] := List.getLast?_eq_none_iff.mp hl2
              have h1 : pl1.draw = [] := (draw_length_zero_iff hdr).mpr h2
              rw [h1] at hl1
              exact Option.noConfusion hl1
            | some c2 =>
              refine OptR.some ⟨hsup, hst, htr, htu, hrand, ?_⟩
              refine forallTwo_set hpl ?_ p.toNat
              refine ⟨hh, hpld, hdis, ?_⟩
              simp only [List.length_append, List.length_dropLast,
                List.length_singleton]
              omega
  | DrawCard p =>
    simp only [BoardState.mutate, BoardState.draw_card]
    have hrel := forallTwo_getElem hpl p.toNat
    cases hg1 : s.players[p.toNat]? with
    | none =>
      cases hg2 : t.players[p.toNat]? with
      | none => exact OptR.none
      | some pl2 =>
        rw [hg1, hg2] at hrel
        cases hrel
    | some pl1 =>
      cases hg2 : t.players[p.toNat]? with
      | none =>
        rw [hg1, hg2] at hrel
        cases hrel
      | some pl2 =>
        rw [hg1, hg2] at hrel
        cases hrel with
        | some hr =>
          obtain ⟨hh, hpld, hdis, hdr⟩ := hr
          dsimp only
          cases hl1 : pl1.draw.getLast? with
          | none =>
            cases hl2 : pl2.draw.getLast? with
            | none => exact OptR.none
            | some c2 =>
              have h1 : pl1.draw = [] := List.getLast?_eq_none_iff.mp hl1
              have h2 : pl2.draw = [] := (draw_length_zero_iff hdr).mp h1
              rw [h2] at hl2
              exact Option.noConfusion hl2
          | some c1 =>
            cases hl2 : pl2.draw.getLast? with
            | none =>
              have h2 : pl2.draw = [] := List.getLast?_eq_none_iff.mp hl2
              have h1 : pl1.draw = [] := (draw_length_zero_iff hdr).mpr h2
              rw [h1] at hl1
              exact Option.noConfusion hl1
            | some c2 =>
              refine OptR.some ⟨hsup, hst, htr, htu, hrand, ?_⟩
              refine forallTwo_set hpl ?_ p.toNat
              refine ⟨?_, hpld, hdis, ?_⟩
              · simp only [List.length_append, List.length_singleton]
                omega
              · simp only [List.length_dropLast]
                omega

end DomCore

namespace DomCore

open Dom

theorem optR_bind {α β γ δ : Type} (R : α → β → Prop) (S : γ → δ → Prop)
    {x1 : Option α} {x2 : Option β} (hx : OptR R x1 x2)
    {f1 : α → Option γ} {f2 : β → Option δ}
    (hf : ∀ a b, R a b → OptR S (f1 a) (f2 b)) :
    OptR S (x1.bind f1) (x2.bind f2) := by
  cases hx with
  | none => exact OptR.none
  | some hr => exact hf _ _ hr

theorem optR_map {α β γ δ : Type} (R : α → β → Prop) (S : γ → δ → Prop)
    {x1 : Option α} {x2 : Option β} (hx : OptR R x1 x2)
    {f1 : α → γ} {f2 : β → δ}
    (hf : ∀ a b, R a b → S (f1 a) (f2 b)) :
    OptR S (x1.map f1) (x2.map f2) := by
  cases hx with
  | none => exact OptR.none
  | some hr => exact OptR.some (hf _ _ hr)

theorem getLast_isNone_congr {l1 l2 : List (Option Card)}
    (h : l1.length = l2.length) :
    l1.getLast?.isNone = l2.getLast?.isNone := by
  cases hl1 : l1.getLast? with
  | none =>
    cases hl2 : l2.getLast? with
    | none => rfl
    | some c2 =>
      have h1 : l1 = [] := List.getLast?_eq_none_iff.mp hl1
      have h2 : l2 = [] := (draw_length_zero_iff h).mp h1
      rw [h2] at hl2
      exact Option.noConfusion hl2
  | some c1 =>
    cases hl2 : l2.getLast? with
    | none =>
      have h2 : l2 = [] := List.getLast?_eq_none_iff.mp hl2
      have h1 : l1 = [] := (draw_length_zero_iff h).mpr h2
      rw [h1] at hl1
      exact Option.noConfusion hl1
    | some c2 => rfl

theorem stateR_reveal {s t : BoardState} (h : StateR s t) (p : Player)
    (c1 c2 : Option Card) (r1 r2 : Reveal) :
    OptR StateR (s.reveal_top_deck p c1 r1) (t.reveal_top_deck p c2 r2) := by
  obtain ⟨hsup, hst, htr, htu, hrand, hpl⟩ := h
  simp only [BoardState.reveal_top_deck]
  have hrel := forallTwo_getElem hpl p.toNat
  cases hg1 : s.players[p.toNat]? with
  | none =>
    cases hg2 : t.players[p.toNat]? with
    | none => exact OptR.none
    | some pl2 =>
      rw [hg1, hg2] at hrel
      cases hrel
  | some pl1 =>
    cases hg2 : t.players[p.toNat]? with
    | none =>
      rw [hg1, hg2] at hrel
      cases hrel
    | some pl2 =>
      rw [hg1, hg2] at hrel
      cases hrel with
      | some hr =>
        obtain ⟨hh, hpld, hdis, hdr⟩ := hr
        dsimp only
        cases hl1 : pl1.draw.getLast? with
        | none =>
          cases hl2 : pl2.draw.getLast? with
          | none => exact OptR.none
          | some c2' =>
            have h1 : pl1.draw = [] := List.getLast?_eq_none_iff.mp hl1
            have h2 : pl2.draw = [] := (draw_length_zero_iff hdr).mp h1
            rw [h2] at hl2
            exact Option.noConfusion hl2
        | some c1' =>
          cases hl2 : pl2.draw.getLast? with
          | none =>
            have h2 : pl2.draw = [] := List.getLast?_eq_none_iff.mp hl2
            have h1 : pl1.draw = [] := (draw_length_zero_iff hdr).mpr h2
            rw [h1] at hl1
            exact Option.noConfusion hl1
          | some c2' =>
            refine OptR.some ⟨hsup, hst, htr, htu, hrand, ?_⟩
            refine forallTwo_set hpl ?_ p.toNat
            refine ⟨hh, hpld, hdis, ?_⟩
            simp only [List.length_append, List.length_dropLast,
              List.length_singleton]
            omega

theorem stateR_reveal_mutate (gen1 gen2 : GenFn) {s t : BoardState}
    (h : StateR s t) (p : Player) (c1 c2 : Option Card) (r1 r2 : Reveal) :
    OptR StateR (s.mutate gen1 (Mutation.RevealTopDeck p c1 r1))
      (t.mutate gen2 (Mutation.RevealTopDeck p c2 r2)) :=
  stateR_reveal h p c1 c2 r1 r2

theorem gameDraw_R (gen1 gen2 : GenFn) {g1 g2 : Game}
    (h : StateR g1.state g2.state) (p : Player) :
    OptR (fun a b => StateR a.1.state b.1.state)
      (Game.draw_card gen1 g1 p) (Game.draw_card gen2 g2 p) := by
  simp only [Game.draw_card, Game.board_state]
  have h0 : OptR (fun (a b : BoardState × List Mutation) => StateR a.1 b.1)
      (some (g1.state, [])) (some (g2.state, [])) := OptR.some h
  refine optR_map (fun (a b : BoardState × List Mutation) => StateR a.1 b.1)
    (fun (a b : Game × List Mutation) => StateR a.1.state b.1.state)
    (optR_bind (fun (a b : BoardState × List Mutation) => StateR a.1 b.1)
      (fun (a b : BoardState × List Mutation) => StateR a.1 b.1)
      (optR_bind (fun (a b : BoardState × List Mutation) => StateR a.1 b.1)
        (fun (a b : BoardState × List Mutation) => StateR a.1 b.1)
        h0 ?_) ?_) ?_
  · intro a b hab
    obtain ⟨hsup, hst, htr, htu, hrand, hpl⟩ := hab
    simp only [BoardState.get_player]
    have hrel := forallTwo_getElem hpl p.toNat
    cases hg1 : a.1.players[p.toNat]? with
    | none =>
      cases hg2 : b.1.players[p.toNat]? with
      | none => exact OptR.none
      | some pl2 =>
        rw [hg1, hg2] at hrel
        cases hrel
    | some pl1 =>
      cases hg2 : b.1.players[p.toNat]? with
      | none =>
        rw [hg1, hg2] at hrel
        cases hrel
      | some pl2 =>
        rw [hg1, hg2] at hrel
        cases hrel with
        | some hr =>
          obtain ⟨hh, hpld, hdis, hdr⟩ := hr
          dsimp only
          have hcond : (pl2.draw.getLast?.isNone && !pl2.discard.toList.isEmpty)
              = (pl1.draw.getLast?.isNone && !pl1.discard.toList.isEmpty) := by
            rw [getLast_isNone_congr hdr, hdis]
          by_cases hb : (pl1.draw.getLast?.isNone
              && !pl1.discard.toList.isEmpty) = true
          · rw [if_pos hb, if_pos (by rw [hcond]; exact hb)]
            simp only [Game.chain_mutate]
            exact optR_map _ _
              (stateR_mutate gen1 gen2 ⟨hsup, hst, htr, htu, hrand, hpl⟩ _)
              (fun x y hxy => hxy)
          · rw [if_neg hb, if_neg (by rw [hcond]; exact hb)]
            exact OptR.some ⟨hsup, hst, htr, htu, hrand, hpl⟩
  · intro a b hab
    obtain ⟨hsup, hst, htr, htu, hrand, hpl⟩ := hab
    simp only [BoardState.get_player]
    have hrel := forallTwo_getElem hpl p.toNat
    cases hg1 : a.1.players[p.toNat]? with
    | none =>
      cases hg2 : b.1.players[p.toNat]? with
      | none => exact OptR.none
      | some pl2 =>
        rw [hg1, hg2] at hrel
        cases hrel
    | some pl1 =>
      cases hg2 : b.1.players[p.toNat]? with
      | none =>
        rw [hg1, hg2] at hrel
        cases hrel
      | some pl2 =>
        rw [hg1, hg2] at hrel
        cases hrel with
        | some hr =>
          obtain ⟨hh, hpld, hdis, hdr⟩ := hr
          dsimp only
          cases hl1 : pl1.draw.getLast? with
          | none =>
            cases hl2 : pl2.draw.getLast? with
            | none => exact OptR.some ⟨hsup, hst, htr, htu, hrand, hpl⟩
            | some c2 =>
              have h1 : pl1.draw = [] := List.getLast?_eq_none_iff.mp hl1
              have h2 : pl2.draw = [] := (draw_length_zero_iff hdr).mp h1
              rw [h2] at hl2
              exact Option.noConfusion hl2
          | some c1 =>
            cases hl2 : pl2.draw.getLast? with
            | none =>
              have h2 : pl2.draw = [] := List.getLast?_eq_none_iff.mp hl2
              have h1 : pl1.draw = [] := (draw_length_zero_iff hdr).mpr h2
              rw [h1] at hl1
              exact Option.noConfusion hl1
            | some c2 =>
              simp only [Game.chain_mutate]
              refine optR_bind
                (fun (u v : BoardState × List Mutation) => StateR u.1 v.1)
                (fun (u v : BoardState × List Mutation) => StateR u.1 v.1)
                (optR_map StateR
                  (fun (u v : BoardState × List Mutation) => StateR u.1 v.1)
                  (stateR_reveal_mutate gen1 gen2
                    ⟨hsup, hst, htr, htu, hrand, hpl⟩ p c1 c2 _ _)
                  (fun x y hxy => hxy)) ?_
              intro x y hxy
              exact optR_map StateR
                (fun (u v : BoardState × List Mutation) => StateR u.1 v.1)
                (stateR_mutate gen1 gen2 hxy (Mutation.DrawCard p))
                (fun u v huv => huv)
  · intro a b hab
    exact hab

end DomCore

namespace DomCore

open Dom

theorem mm_run_none_core (gen : GenFn) (L : List Mutation) :
    (L.foldl (fun st m => st.bind (fun x => BoardState.mutate gen x m)) none)
      = none := by
  induction L with
  | nil => rfl
  | cons m ms ih => simpa using ih

theorem mm_cons_core (gen : GenFn) (s : BoardState) (m : Mutation)
    (L : List Mutation) :
    BoardState.mutate_multi gen s (m :: L)
      = (s.mutate gen m).bind (fun t => t.mutate_multi gen L) := by
  cases h : s.mutate gen m with
  | none => simp [BoardState.mutate_multi, h, mm_run_none_core]
  | some t => simp [BoardState.mutate_multi, h]

theorem mm_R (gen1 gen2 : GenFn) :
    ∀ (L : List Mutation) {s t : BoardState}, StateR s t →
      OptR StateR (s.mutate_multi gen1 L) (t.mutate_multi gen2 L)
  | [], s, t, h => OptR.some h
  | m :: L, s, t, h => by
    rw [mm_cons_core, mm_cons_core]
    refine optR_bind StateR StateR (stateR_mutate gen1 gen2 h m) ?_
    intro a b hab
    exact mm_R gen1 gen2 L hab

theorem drawLoop_R (gen1 gen2 : GenFn) (p : Player) :
    ∀ (n : Nat) {g1 g2 : Game}, StateR g1.state g2.state →
      OptR (fun a b => StateR a.1.state b.1.state)
        (Game.drawLoop gen1 g1 p n) (Game.drawLoop gen2 g2 p n)
  | 0, g1, g2, h => OptR.some h
  | n+1, g1, g2, h => by
    simp only [Game.drawLoop]
    refine optR_bind (fun (a b : Game × List Mutation) => StateR a.1.state b.1.state)
      (fun (a b : Game × List Mutation) => StateR a.1.state b.1.state)
      (gameDraw_R gen1 gen2 h p) ?_
    intro a b hab
    exact optR_map (fun (a b : Game × List Mutation) => StateR a.1.state b.1.state)
      (fun (a b : Game × List Mutation) => StateR a.1.state b.1.state)
      (drawLoop_R gen1 gen2 p n hab) (fun u v huv => huv)

theorem playersLoop_R (gen1 gen2 : GenFn) :
    ∀ (ps : List Player) {g1 g2 : Game}, StateR g1.state g2.state →
      OptR (fun a b => StateR a.1.state b.1.state)
        (Game.playersLoop gen1 g1 ps) (Game.playersLoop gen2 g2 ps)
  | [], g1, g2, h => OptR.some h
  | p :: ps, g1, g2, h => by
    simp only [Game.playersLoop]
    refine optR_bind (fun (a b : Game × List Mutation) => StateR a.1.state b.1.state)
      (fun (a b : Game × List Mutation) => StateR a.1.state b.1.state)
      (drawLoop_R gen1 gen2 p 5 h) ?_
    intro a b hab
    exact optR_map (fun (a b : Game × List Mutation) => StateR a.1.state b.1.state)
      (fun (a b : Game × List Mutation) => StateR a.1.state b.1.state)
      (playersLoop_R gen1 gen2 ps hab) (fun u v huv => huv)

theorem stateR_refl (s : BoardState) : StateR s s :=
  ⟨rfl, rfl, rfl, rfl, rfl,
   List.forall₂_same.mpr (fun _ _ => ⟨rfl, rfl, rfl, rfl⟩)⟩

theorem new_from_seed_R (gen1 gen2 : GenFn) (rules : Rules) (seed : Nat) :
    OptR (fun a b => StateR a.1.state b.1.state)
      (Game.new_from_seed gen1 rules seed) (Game.new_from_seed gen2 rules seed) := by
  simp only [Game.new_from_seed]
  refine optR_bind StateR (fun (a b : Game × List Mutation) => StateR a.1.state b.1.state)
    (mm_R gen1 gen2 (Game.init_muts rules) (stateR_refl (BoardState.new (some seed)))) ?_
  intro a b hab
  exact optR_map (fun (a b : Game × List Mutation) => StateR a.1.state b.1.state)
    (fun (a b : Game × List Mutation) => StateR a.1.state b.1.state)
    (playersLoop_R gen1 gen2 _ hab) (fun u v huv => huv)

end DomCore

namespace DomCore

open Dom

set_option maxRecDepth 10000 in
/-- C5: for every generator behaviour of the external PRNG, the two-player
first game with the zero seed has the claimed supply counts, P0 as the active
player, and five cards in P0's hand. -/
theorem c5_two_player_first_game (gen : GenFn) :
    ∃ g L, Game.new_first_game gen Players.Two = some (g, L) ∧
      g.state.count_supply Card.Estate = some 8 ∧
      g.state.count_supply Card.Duchy = some 8 ∧
      g.state.count_supply Card.Province = some 8 ∧
      g.state.count_supply Card.Curse = some 10 ∧
      g.state.count_supply Card.Copper = some 46 ∧
      g.state.active_player = Player.P0 ∧
      ∃ pl, g.state.get_player Player.P0 = some pl ∧ pl.hand.length = 5 := by
  have hrel : OptR
      (fun (a b : Game × List Mutation) => StateR a.1.state b.1.state)
      (Game.new_first_game gen Players.Two)
      (Game.new_first_game genModel Players.Two) :=
    new_from_seed_R gen genModel twoRules DUMMY_SEED
  have hconc : Game.new_first_game genModel Players.Two = some resTwo := rfl
  rw [hconc] at hrel
  obtain ⟨gL, hgen, hr⟩ := optR_some_right hrel
  obtain ⟨hsup, hst, htr, htu, hrand, hpl⟩ := hr
  have hcs : ∀ c, gL.1.state.count_supply c = resTwo.1.state.count_supply c := by
    intro c
    simp only [BoardState.count_supply, hsup, hst]
  refine ⟨gL.1, gL.2, hgen, ?_, ?_, ?_, ?_, ?_, ?_, ?_⟩
  · exact (hcs _).trans (by decide)
  · exact (hcs _).trans (by decide)
  · exact (hcs _).trans (by decide)
  · exact (hcs _).trans (by decide)
  · exact (hcs _).trans (by decide)
  · exact htu.trans (by decide)
  · have hres0 : resTwo.1.state.players[0]?
        = some ((resTwo.1.state.players[0]?).getD freshPlayer) := rfl
    have h0 := forallTwo_getElem hpl 0
    rw [hres0] at h0
    obtain ⟨pl, hq, hrp⟩ := optR_some_right h0
    exact ⟨pl, hq, hrp.1.trans (by decide)⟩

end DomCore

namespace DomCore

open Dom

set_option maxRecDepth 10000 in
/-- C6 (amended): for every generator behaviour of the external PRNG, the
three-player first game leaves 12 Estates in the supply after the nine setup
gains (the 21-card pile minus 3 per player), together with 12 Duchies,
12 Provinces and 20 Curses. -/
theorem c6_three_player_first_game (gen : GenFn) :
    ∃ g L, Game.new_first_game gen Players.Three = some (g, L) ∧
      g.state.count_supply Card.Estate = some 12 ∧
      g.state.count_supply Card.Duchy = some 12 ∧
      g.state.count_supply Card.Province = some 12 ∧
      g.state.count_supply Card.Curse = some 20 := by
  have hrel : OptR
      (fun (a b : Game × List Mutation) => StateR a.1.state b.1.state)
      (Game.new_first_game gen Players.Three)
      (Game.new_first_game genModel Players.Three) :=
    new_from_seed_R gen genModel threeRules DUMMY_SEED
  have hconc : Game.new_first_game genModel Players.Three = some resThree := rfl
  rw [hconc] at hrel
  obtain ⟨gL, hgen, hr⟩ := optR_some_right hrel
  obtain ⟨hsup, hst, htr, htu, hrand, hpl⟩ := hr
  have hcs : ∀ c, gL.1.state.count_supply c = resThree.1.state.count_supply c := by
    intro c
    simp only [BoardState.count_supply, hsup, hst]
  refine ⟨gL.1, gL.2, hgen, ?_, ?_, ?_, ?_⟩
  · exact (hcs _).trans (by decide)
  · exact (hcs _).trans (by decide)
  · exact (hcs _).trans (by decide)
  · exact (hcs _).trans (by decide)

set_option maxRecDepth 10000 in
/-- C6, counterexample to the claimed Estate count: after constructing a
three-player first game the Estate supply is not 21 — the nine setup gains
have already been deducted from the 21-card pile. -/
theorem c6_estate_not_21 :
    ((Game.new_first_game genModel Players.Three).bind
        (fun gl => gl.1.state.count_supply Card.Estate)) ≠ some 21 := by
  decide

set_option maxRecDepth 10000 in
/-- C1, counterexample: replaying the mutation log of a successful two-player
first game from the empty state (no RNG) yields a board that is not equal, by
the rand-ignoring `BoardState.beq`, to the live game's board: the live draw
piles carry known cards while the replayed piles are anonymized to `none`. -/
theorem c1_replay_not_equal :
    ((Game.new_first_game genModel Players.Two).bind
        (fun gl => (BoardState.from_mutations genModel gl.2).map
          (fun s => BoardState.beq s gl.1.state))) = some false := by
  decide

set_option maxRecDepth 10000 in
/-- C1 (amended): replaying the mutation log of a successful two-player first
game from the empty state (no RNG) succeeds, and the replayed board agrees
with the live board on supply, stacks, trash, hands, played and discard piles,
and on draw piles up to anonymization of the live board's known cards. -/
theorem c1_replay_matches_anonymized :
    ((Game.new_first_game genModel Players.Two).bind
        (fun gl => (BoardState.from_mutations genModel gl.2).map
          (fun s => BoardState.matchesAnonymized s gl.1.state))) = some true := by
  decide

end DomCore
